import Mathlib

/-!
# Win32 environment layer of leveldb (`util/env_win.cc`)

A shallow embedding of the Win32 `Env` implementation.  C++ strings are lists of
characters, machine words are natural numbers, and every call into the operating
system goes through an explicit host interface `Win32Api` that threads a host
state.  Each function below follows the control flow of the C++ function of the
same name.
-/

set_option autoImplicit false

namespace leveldb

/-! ## Basic types -/

/-- A `std::string` (and, for wide strings, a `std::wstring`): a sequence of characters. -/
abbrev CppString := List Char

/-- A Win32 `DWORD`.  Values produced by the host are reduced modulo `2^32` where it matters. -/
abbrev DWORD := Nat

/-- A Win32 `HANDLE`, seen as the integer value of the pointer. -/
abbrev HANDLE := Nat

/-- The number of values of a `DWORD`. -/
def DWORD_MOD : Nat := 2 ^ 32

/-- The null handle. -/
def NULL : HANDLE := 0

/-- The value `(HANDLE)-1` of the Windows headers (64-bit pointers). -/
def INVALID_HANDLE_VALUE : HANDLE := 2 ^ 64 - 1

/-- Windows error code `ERROR_FILE_NOT_FOUND` (from the Windows headers). -/
def ERROR_FILE_NOT_FOUND : DWORD := 2

/-- Windows error code `ERROR_PATH_NOT_FOUND` (from the Windows headers). -/
def ERROR_PATH_NOT_FOUND : DWORD := 3

/-- Windows error code `ERROR_INVALID_HANDLE` (from the Windows headers). -/
def ERROR_INVALID_HANDLE : DWORD := 6

/-- Windows error code `ERROR_SHARING_VIOLATION` (from the Windows headers). -/
def ERROR_SHARING_VIOLATION : DWORD := 32

/-- Windows error code `ERROR_ALREADY_EXISTS` (from the Windows headers), `0xb7`. -/
def ERROR_ALREADY_EXISTS : DWORD := 183

/-- The value `INVALID_FILE_ATTRIBUTES` of the Windows headers. -/
def INVALID_FILE_ATTRIBUTES : DWORD := 2 ^ 32 - 1

/-- The attribute bit `FILE_ATTRIBUTE_DIRECTORY` of the Windows headers. -/
def FILE_ATTRIBUTE_DIRECTORY : DWORD := 16

/-- Modelled from the spec: the result/error container `Status` (declared in
`leveldb/status.h`, which is not among the sources) with the kinds `OK`, `NotFound` and
`IOError`; the two error kinds carry the two message parts they were built from. -/
inductive Status where
  | OK : Status
  | NotFound (msg msg2 : CppString) : Status
  | IOError (msg msg2 : CppString) : Status
  deriving DecidableEq, Repr

/-- The C++ `Status::ok()`. -/
def Status.ok : Status → Bool
  | Status.OK => true
  | _ => false

/-- The C++ `Status::IsNotFound()`. -/
def Status.IsNotFound : Status → Bool
  | Status.NotFound _ _ => true
  | _ => false

/-- The C++ `Status::IsIOError()`. -/
def Status.IsIOError : Status → Bool
  | Status.IOError _ _ => true
  | _ => false

/-- A `Slice`: a view of a byte sequence; `size()` is its length. -/
abbrev Slice := List UInt8

/-- The arguments of a `CreateFileW` call that the code chooses. -/
structure OpenArgs where
  access : DWORD
  share : DWORD
  disposition : DWORD
  flags : DWORD
  deriving DecidableEq, Repr

/-- The host interface: the Win32 calls made by `env_win.cc`, over a host state `σ`.
Every call returns its C result together with the next host state.

* `FormatMessageW code` is the text the host has for an error code.
* `MultiByteToWideChar` and `WideCharToMultiByte` are the code-page conversions behind
  `ToWidePath` and `ToNarrowPath`.
* `WriteFile` returns the `BOOL` result and the value stored in `lpNumberOfBytesWritten`.
* `FindFirstFileW` returns the find handle, the first `cFileName`, and the finite list of
  names that the following `FindNextFileW` calls yield before reporting `FALSE`. -/
structure Win32Api (σ : Type) where
  GetLastError : σ → DWORD
  FormatMessageW : DWORD → CppString
  MultiByteToWideChar : CppString → CppString
  WideCharToMultiByte : CppString → CppString
  CreateFileW : σ → CppString → OpenArgs → HANDLE × σ
  CloseHandle : σ → HANDLE → Bool × σ
  WriteFile : σ → HANDLE → Slice → DWORD → (Bool × DWORD) × σ
  MoveFileW : σ → CppString → CppString → Bool × σ
  DeleteFileW : σ → CppString → Bool × σ
  GetFileAttributes : σ → CppString → DWORD × σ
  CreateDirectory : σ → CppString → Bool × σ
  FindFirstFileW : σ → CppString → (HANDLE × CppString × List CppString) × σ
  FindClose : σ → HANDLE → Bool × σ

/-! ## String helpers of the C and C++ libraries -/

/-- Index of the last element of `s` that satisfies `p`, if any. -/
def lastIndexOf (p : Char → Bool) : CppString → Option Nat
  | [] => none
  | c :: cs =>
    match lastIndexOf p cs with
    | some i => some (i + 1)
    | none => if p c then some 0 else none

/-- The C `strrchr(s, ch)`, as the index of the last occurrence of `ch`. -/
def strrchr (s : CppString) (ch : Char) : Option Nat :=
  lastIndexOf (fun c => c == ch) s

/-- The C++ `std::string::find_last_of(chars)`; `none` stands for `npos`. -/
def find_last_of (s : CppString) (chars : CppString) : Option Nat :=
  lastIndexOf (fun c => chars.contains c) s

/-- The C++ `s.substr(0, n)`. -/
def substr0 (s : CppString) (n : Nat) : CppString := s.take n

/-- The C++ `std::replace(first, last, old, new)` over a whole string. -/
def replace (s : CppString) (old new : Char) : CppString :=
  s.map (fun c => if c = old then new else c)

/-- The C++ `path[0]` of a `std::string`: the terminating NUL when the string is empty. -/
def at0 (path : CppString) : Char := path.headD (Char.ofNat 0)

/-! ## Path resolution -/

/-- `GetCurrentDir`: the module file name reported by the host, cut at its last backslash.
`none` stands for the write through the null pointer that `strrchr` returns when the name
has no backslash. -/
def GetCurrentDir (moduleFileName : CppString) : Option CppString :=
  match strrchr moduleFileName '\\' with
  | some i => some (moduleFileName.take i)
  | none => none

/-- `ModifyPath(std::string&)`; `CurrentDir` is the global captured at start-up. -/
def ModifyPath (CurrentDir : CppString) (path : CppString) : CppString :=
  let path := if at0 path = '/' ∨ at0 path = '\\' then CurrentDir ++ path else path
  replace path '/' '\\'

/-- `ModifyPath(std::wstring&)`; `CurrentDirW` is the wide global captured at start-up. -/
def ModifyPathW (CurrentDirW : CppString) (path : CppString) : CppString :=
  let path := if at0 path = '/' ∨ at0 path = '\\' then CurrentDirW ++ path else path
  replace path '/' '\\'

/-- The reference normalisation of the specification: every `/` becomes `\`. -/
def normalize (p : CppString) : CppString :=
  p.map (fun c => if c = '/' then '\\' else c)

/-- A path starts with a separator. -/
def startsWithSeparator (p : CppString) : Prop :=
  ∃ c rest, p = c :: rest ∧ (c = '/' ∨ c = '\\')

/-! ## Error classification -/

section Api

variable {σ : Type} (api : Win32Api σ)

/-- `ToWidePath`. -/
def ToWidePath (value : CppString) : CppString := api.MultiByteToWideChar value

/-- `ToNarrowPath`. -/
def ToNarrowPath (value : CppString) : CppString := api.WideCharToMultiByte value

/-- `GetLastErrSz`: the host text for the last error code, narrowed. -/
def GetLastErrSz (s : σ) : CppString :=
  ToNarrowPath api (api.FormatMessageW (api.GetLastError s))

/-- `Win32Error(context)`. -/
def Win32Error (s : σ) (context : CppString) : Status :=
  if api.GetLastError s = ERROR_FILE_NOT_FOUND then
    Status.NotFound context (GetLastErrSz api s)
  else
    Status.IOError context (GetLastErrSz api s)

/-! ## Writable file -/

/-- The fields of `Win32WritableFile`. -/
structure Win32WritableFile where
  filename_ : CppString
  hFile_ : HANDLE
  deriving DecidableEq, Repr

/-- `CreateFileW` arguments of the `Win32WritableFile` constructor. -/
def writableOpenArgs (append : Bool) : OpenArgs :=
  { access := if append then 0x0004 else 0x40000000
    share := 0x1 ||| 0x4 ||| 0x2
    disposition := if append then 4 else 2
    flags := 0x80 }

/-- The constructor `Win32WritableFile(fname, append)`. -/
def Win32WritableFile.new (s : σ) (fname : CppString) (append : Bool) :
    Win32WritableFile × σ :=
  let path := ToWidePath api fname
  let r := api.CreateFileW s path (writableOpenArgs append)
  ({ filename_ := fname, hFile_ := r.1 }, r.2)

/-- `Win32WritableFile::isEnable`. -/
def Win32WritableFile.isEnable (f : Win32WritableFile) : Bool :=
  f.hFile_ != INVALID_HANDLE_VALUE

/-- `Win32WritableFile::Append`.  The byte count handed to `WriteFile` and the count it
stores are `DWORD`s. -/
def Win32WritableFile.Append (s : σ) (f : Win32WritableFile) (data : Slice) : Status × σ :=
  let w := api.WriteFile s f.hFile_ data (data.length % DWORD_MOD)
  let r : DWORD := w.1.2 % DWORD_MOD
  if !w.1.1 || r != data.length then
    (Win32Error api w.2 ("Win32WritableFile.Append::WriteFile: ".toList ++ f.filename_), w.2)
  else
    (Status.OK, w.2)

/-- `Win32WritableFile::Close`. -/
def Win32WritableFile.Close (s : σ) (f : Win32WritableFile) :
    Status × Win32WritableFile × σ :=
  let c := api.CloseHandle s f.hFile_
  if !c.1 then
    (Win32Error api c.2 ("Win32WritableFile.Close::CloseHandle: ".toList ++ f.filename_), f, c.2)
  else
    (Status.OK, { f with hFile_ := INVALID_HANDLE_VALUE }, c.2)

/-- The destructor `~Win32WritableFile`: closes unless the handle field is already the
invalid value.  The status of `Close` is dropped. -/
def Win32WritableFile.destroy (s : σ) (f : Win32WritableFile) : σ :=
  if f.hFile_ ≠ INVALID_HANDLE_VALUE then (Win32WritableFile.Close api s f).2.2 else s

/-- `Win32WritableFile::Flush`. -/
def Win32WritableFile.Flush (s : σ) (_f : Win32WritableFile) : Status × σ :=
  (Status.OK, s)

/-! ## Sequential and random-access readers -/

/-- The fields of `Win32SequentialFile`. -/
structure Win32SequentialFile where
  filename_ : CppString
  hFile_ : HANDLE
  deriving DecidableEq, Repr

/-- `CreateFileW` arguments of `Win32SequentialFile::_Init`. -/
def sequentialOpenArgs : OpenArgs :=
  { access := 0x80000000, share := 0x1 ||| 0x2, disposition := 3,
    flags := 0x80 ||| 0x08000000 }

/-- `Win32SequentialFile::_Init`. -/
def Win32SequentialFile._Init (s : σ) (f : Win32SequentialFile) : Win32SequentialFile × σ :=
  let path := ToWidePath api f.filename_
  let r := api.CreateFileW s path sequentialOpenArgs
  let h := if r.1 = INVALID_HANDLE_VALUE then NULL else r.1
  ({ f with hFile_ := h }, r.2)

/-- The constructor `Win32SequentialFile(fname)`. -/
def Win32SequentialFile.new (s : σ) (fname : CppString) : Win32SequentialFile × σ :=
  Win32SequentialFile._Init api s { filename_ := fname, hFile_ := NULL }

/-- `Win32SequentialFile::isEnable`. -/
def Win32SequentialFile.isEnable (f : Win32SequentialFile) : Bool := f.hFile_ != NULL

/-- `Win32SequentialFile::_CleanUp`, which is all the destructor does. -/
def Win32SequentialFile._CleanUp (s : σ) (f : Win32SequentialFile) :
    Win32SequentialFile × σ :=
  if f.hFile_ ≠ NULL then
    ({ f with hFile_ := NULL }, (api.CloseHandle s f.hFile_).2)
  else (f, s)

/-- The fields of `Win32RandomAccessFile`. -/
structure Win32RandomAccessFile where
  hFile_ : HANDLE
  filename_ : CppString
  deriving DecidableEq, Repr

/-- `CreateFileW` arguments of `Win32RandomAccessFile::_Init`. -/
def randomAccessOpenArgs : OpenArgs :=
  { access := 0x80000000, share := 0x1 ||| 0x2, disposition := 3,
    flags := 0x80 ||| 0x10000000 }

/-- `Win32RandomAccessFile::_Init`, with its `BOOL` result. -/
def Win32RandomAccessFile._Init (s : σ) (f : Win32RandomAccessFile) (path : CppString) :
    Bool × Win32RandomAccessFile × σ :=
  let r : HANDLE × σ :=
    if f.hFile_ = NULL then api.CreateFileW s path randomAccessOpenArgs else (f.hFile_, s)
  if r.1 = NULL ∨ r.1 = INVALID_HANDLE_VALUE then
    (false, { f with hFile_ := NULL }, r.2)
  else
    (true, { f with hFile_ := r.1 }, r.2)

/-- The constructor `Win32RandomAccessFile(fname)`. -/
def Win32RandomAccessFile.new (s : σ) (fname : CppString) : Win32RandomAccessFile × σ :=
  (Win32RandomAccessFile._Init api s { hFile_ := NULL, filename_ := fname }
    (ToWidePath api fname)).2

/-- `Win32RandomAccessFile::isEnable`. -/
def Win32RandomAccessFile.isEnable (f : Win32RandomAccessFile) : Bool := f.hFile_ != NULL

/-- `Win32RandomAccessFile::_CleanUp`, which is all the destructor does. -/
def Win32RandomAccessFile._CleanUp (s : σ) (f : Win32RandomAccessFile) :
    Win32RandomAccessFile × σ :=
  if f.hFile_ ≠ NULL then
    ({ f with hFile_ := NULL }, (api.CloseHandle s f.hFile_).2)
  else (f, s)

/-! ## File lock -/

/-- The fields of `Win32FileLock`. -/
structure Win32FileLock where
  hFile_ : HANDLE
  filename_ : CppString
  deriving DecidableEq, Repr

/-- `CreateFileW` arguments of `Win32FileLock::_Init`: read and write access, share mode `0`,
`CREATE_ALWAYS`. -/
def lockOpenArgs : OpenArgs :=
  { access := 0x80000000 ||| 0x40000000, share := 0, disposition := 2, flags := 0x80 }

/-- `Win32FileLock::_Init`, with its `BOOL` result. -/
def Win32FileLock._Init (s : σ) (l : Win32FileLock) (path : CppString) :
    Bool × Win32FileLock × σ :=
  let r : HANDLE × σ :=
    if l.hFile_ = NULL then api.CreateFileW s path lockOpenArgs else (l.hFile_, s)
  if r.1 = NULL ∨ r.1 = INVALID_HANDLE_VALUE then
    (false, { l with hFile_ := NULL }, r.2)
  else
    (true, { l with hFile_ := r.1 }, r.2)

/-- The constructor `Win32FileLock(fname)`. -/
def Win32FileLock.new (s : σ) (fname : CppString) : Win32FileLock × σ :=
  (Win32FileLock._Init api s { hFile_ := NULL, filename_ := fname } (ToWidePath api fname)).2

/-- `Win32FileLock::_CleanUp`, which is all the destructor does: the handle is handed to
`CloseHandle` whatever its value. -/
def Win32FileLock._CleanUp (s : σ) (l : Win32FileLock) : Win32FileLock × σ :=
  ({ l with hFile_ := NULL }, (api.CloseHandle s l.hFile_).2)

/-- `Win32FileLock::isEnable`. -/
def Win32FileLock.isEnable (l : Win32FileLock) : Bool := l.hFile_ != NULL

/-! ## Logger object -/

/-- The field of `Win32Logger`: the writable file it owns. -/
structure Win32Logger where
  _pFileProxy : Win32WritableFile
  deriving DecidableEq, Repr

/-! ## Environment operations -/

/-- `Win32Env::NewSequentialFile`.  `result` is the value of `*result` on entry; the second
component of the value is `*result` on return (`none` is the null pointer). -/
def NewSequentialFile (CurrentDir : CppString) (s : σ) (fname : CppString)
    (result : Option Win32SequentialFile) : Status × Option Win32SequentialFile × σ :=
  let path := ModifyPath CurrentDir fname
  let p := Win32SequentialFile.new api s path
  if p.1.isEnable then
    (Status.OK, some p.1, p.2)
  else
    let d := Win32SequentialFile._CleanUp api p.2 p.1
    (Win32Error api d.2 path, result, d.2)

/-- `Win32Env::NewRandomAccessFile`. -/
def NewRandomAccessFile (CurrentDir : CppString) (s : σ) (fname : CppString)
    (_result : Option Win32RandomAccessFile) : Status × Option Win32RandomAccessFile × σ :=
  let path := ModifyPath CurrentDir fname
  let p := Win32RandomAccessFile.new api s path
  if !p.1.isEnable then
    let d := Win32RandomAccessFile._CleanUp api p.2 p.1
    (Win32Error api d.2 path, none, d.2)
  else
    (Status.OK, some p.1, p.2)

/-- `Win32Env::NewLogger`. -/
def NewLogger (CurrentDir : CppString) (s : σ) (fname : CppString)
    (_result : Option Win32Logger) : Status × Option Win32Logger × σ :=
  let path := ModifyPath CurrentDir fname
  let p := Win32WritableFile.new api s path false
  if !p.1.isEnable then
    let s1 := Win32WritableFile.destroy api p.2 p.1
    (Status.IOError path "could not create a logger.".toList, none, s1)
  else
    (Status.OK, some { _pFileProxy := p.1 }, p.2)

/-- `Win32Env::NewWritableFile`.  On failure the file object is not deleted. -/
def NewWritableFile (CurrentDir : CppString) (s : σ) (fname : CppString)
    (_result : Option Win32WritableFile) : Status × Option Win32WritableFile × σ :=
  let path := ModifyPath CurrentDir fname
  let p := Win32WritableFile.new api s path false
  if !p.1.isEnable then
    (Win32Error api p.2 path, none, p.2)
  else
    (Status.OK, some p.1, p.2)

/-- `Win32Env::NewAppendableFile`.  On failure the file object is not deleted. -/
def NewAppendableFile (CurrentDir : CppString) (s : σ) (fname : CppString)
    (_result : Option Win32WritableFile) : Status × Option Win32WritableFile × σ :=
  let path := ModifyPath CurrentDir fname
  let p := Win32WritableFile.new api s path true
  if !p.1.isEnable then
    (Win32Error api p.2 path, none, p.2)
  else
    (Status.OK, some p.1, p.2)

/-- `Win32Env::LockFile`.  `_lock` is the value of `*lock` on entry; the second component
of the value is `*lock` on return. -/
def LockFile (CurrentDir : CppString) (s : σ) (fname : CppString)
    (_lock : Option Win32FileLock) : Status × Option Win32FileLock × σ :=
  let path := ModifyPath CurrentDir fname
  let p := Win32FileLock.new api s path
  if !p.1.isEnable then
    let d := Win32FileLock._CleanUp api p.2 p.1
    (Status.IOError path "Could not lock file.".toList, none, d.2)
  else
    (Status.OK, some p.1, p.2)

/-- `Win32Env::UnlockFile`: deletes the lock object (nothing happens for a null pointer). -/
def UnlockFile (s : σ) (lock : Option Win32FileLock) : Status × σ :=
  match lock with
  | some l => (Status.OK, (Win32FileLock._CleanUp api s l).2)
  | none => (Status.OK, s)

/-- `Win32Env::RenameFile`. -/
def RenameFile (CurrentDir : CppString) (s : σ) (src target : CppString) : Status × σ :=
  let wsrc_path := ToWidePath api (ModifyPath CurrentDir src)
  let wtarget_path := ToWidePath api (ModifyPath CurrentDir target)
  let m := api.MoveFileW s wsrc_path wtarget_path
  if !m.1 then
    let err := api.GetLastError m.2
    if err = 0x000000b7 then
      let d := api.DeleteFileW m.2 wtarget_path
      if !d.1 then
        (Win32Error api d.2 (src ++ "Could not rename file.".toList), d.2)
      else
        let m2 := api.MoveFileW d.2 wsrc_path wtarget_path
        if !m2.1 then
          (Win32Error api m2.2 (src ++ "Could not rename file.".toList), m2.2)
        else (Status.OK, m2.2)
    else (Status.OK, m.2)
  else (Status.OK, m.2)

/-- The loop of `Win32Env::GetChildren`: the current `cFileName` is narrowed and pushed,
then `FindNextFileW` either yields the next name or reports `FALSE`. -/
def GetChildren_loop (result : List CppString) (cFileName : CppString) :
    List CppString → List CppString
  | [] => result ++ [ToNarrowPath api cFileName]
  | next :: pending => GetChildren_loop (result ++ [ToNarrowPath api cFileName]) next pending

/-- `Win32Env::GetChildren`.  `result` is the content of `*result` on entry; the second
component of the value is its content on return. -/
def GetChildren (CurrentDir : CppString) (s : σ) (dir : CppString)
    (result : List CppString) : Status × List CppString × σ :=
  let path := ModifyPath CurrentDir dir ++ "\\*.*".toList
  let wpath := ToWidePath api path
  let f := api.FindFirstFileW s wpath
  let hFind := f.1.1
  if hFind ≠ NULL ∧ hFind ≠ INVALID_HANDLE_VALUE then
    let result := GetChildren_loop api result f.1.2.1 f.1.2.2
    (Status.OK, result, (api.FindClose f.2 hFind).2)
  else
    (Status.IOError dir "Could not get children.".toList, result, f.2)

/-- The tail of `CreateDirInner`: `CreateDirectory`, tolerating `ERROR_ALREADY_EXISTS`. -/
def CreateDirInner_create (s : σ) (dirname : CppString) : Status × σ :=
  let c := api.CreateDirectory s dirname
  if c.1 = false ∧ api.GetLastError c.2 ≠ ERROR_ALREADY_EXISTS then
    (Win32Error api c.2 (dirname ++ ":Could not create directory.".toList), c.2)
  else
    (Status.OK, c.2)

/-- `CreateDirInner`.  The recursive call is on `dirname.substr(0, slash)`, which is strictly
shorter than `dirname`. -/
def CreateDirInner (s : σ) (dirname : CppString) : Status × σ :=
  let a := api.GetFileAttributes s dirname
  if a.1 = INVALID_FILE_ATTRIBUTES then
    match _hslash : find_last_of dirname "\\".toList with
    | some slash =>
      let r := CreateDirInner a.2 (substr0 dirname slash)
      if !r.1.ok then r else CreateDirInner_create api r.2 dirname
    | none => CreateDirInner_create api a.2 dirname
  else
    (Status.OK, a.2)
termination_by dirname.length
decreasing_by
  have bound : ∀ (p : Char → Bool) (t : CppString) (i : Nat),
      lastIndexOf p t = some i → i < t.length := by
    intro p t
    induction t with
    | nil => intro i hi; simp [lastIndexOf] at hi
    | cons c cs ih =>
      intro i hi
      unfold lastIndexOf at hi
      cases hcs : lastIndexOf p cs with
      | some j =>
        rw [hcs] at hi
        have hj := ih j hcs
        simp only [Option.some.injEq] at hi
        simp only [List.length_cons]
        omega
      | none =>
        rw [hcs] at hi
        by_cases hp : p c = true
        · simp only [hp, if_true, Option.some.injEq] at hi
          simp only [List.length_cons]
          omega
        · simp [hp] at hi
  have hlt := bound _ dirname slash _hslash
  simp only [substr0, List.length_take]
  omega

/-- `Win32Env::CreateDir`.  The path is given its trailing backslash, resolved, and handed
to `CreateDirInner`.  (For an empty `dirname` the C++ reads `path[-1]`.) -/
def CreateDir (CurrentDir : CppString) (s : σ) (dirname : CppString) : Status × σ :=
  let path := if dirname.getLast? ≠ some '\\' then dirname ++ ['\\'] else dirname
  let path := ModifyPath CurrentDir path
  CreateDirInner api s path

/-! ## Logger -/

/-- The fields of a Win32 `SYSTEMTIME` that `Logv` reads (each a `WORD`). -/
structure SYSTEMTIME where
  wYear : Nat
  wMonth : Nat
  wDay : Nat
  wHour : Nat
  wMinute : Nat
  wSecond : Nat
  wMilliseconds : Nat
  deriving DecidableEq, Repr

/-- The `printf` conversion `%0<width>d` of a non-negative value: decimal digits, padded
with zeros on the left up to `width`. -/
def fmt_d (width : Nat) (n : Nat) : CppString :=
  List.replicate (width - (Nat.toDigits 10 n).length) '0' ++ Nat.toDigits 10 n

/-- The `printf` conversion `%llx`: lower-case hexadecimal digits. -/
def fmt_llx (n : Nat) : CppString := Nat.toDigits 16 n

/-- The text of the header conversion `"%04d/%02d/%02d-%02d:%02d:%02d.%06d %llx "` of
`Logv` with the arguments the code passes: the sixth argument is `wMinute` again. -/
def Logv_header (st : SYSTEMTIME) (thread_id : Nat) : CppString :=
  fmt_d 4 st.wYear ++ ['/'] ++ fmt_d 2 st.wMonth ++ ['/'] ++ fmt_d 2 st.wDay ++ ['-'] ++
    fmt_d 2 st.wHour ++ [':'] ++ fmt_d 2 st.wMinute ++ [':'] ++ fmt_d 2 st.wMinute ++ ['.'] ++
    fmt_d 6 st.wMilliseconds ++ [' '] ++ fmt_llx thread_id ++ [' ']

/-- The C99 `snprintf(buf, n, ...)` and `vsnprintf` for a conversion whose full text is
`text`: the characters stored in front of the terminating NUL (at most `n - 1`), and the
return value, which is the length of the full text. -/
def snprintf (n : Nat) (text : CppString) : CppString × Nat :=
  (text.take (n - 1), text.length)

/-- The two formatting calls of one pass of `Logv` into a buffer of `bufsize` characters:
the characters stored from `base` on, and the offset `p - base` afterwards.  The message is
only formatted when the header left `p < limit`. -/
def Logv_format (bufsize : Nat) (header message : CppString) : CppString × Nat :=
  let h := snprintf bufsize header
  if h.2 < bufsize then
    let m := snprintf (bufsize - h.2) message
    (h.1 ++ m.1, h.2 + m.2)
  else
    (h.1, h.2)

/-- The step "add newline if necessary" of `Logv`: when `p == base` or `p[-1]` is not a
newline, a newline is stored at `p` and `p` advances. -/
def Logv_newline (buf : CppString) (p : Nat) : CppString × Nat :=
  if p = 0 ∨ buf[p - 1]? ≠ some '\n' then
    (buf.take p ++ ['\n'] ++ buf.drop (p + 1), p + 1)
  else
    (buf, p)

/-- The bytes of a character string. -/
def toBytes (s : CppString) : Slice := s.map (fun c => UInt8.ofNat c.toNat)

/-- The end of a pass of `Logv` that does not `continue`: the assertion `p <= limit`
(`none` when it fails), then `Append` of `Slice(base, p - base)` and `Flush` on the file
proxy, whose statuses are dropped. -/
def Logv_write (s : σ) (logger : Win32Logger) (bufsize : Nat) (buf : CppString) (p : Nat) :
    Option σ :=
  if p ≤ bufsize then
    let a := Win32WritableFile.Append api s logger._pFileProxy (toBytes (buf.take p))
    some (Win32WritableFile.Flush a.2 logger._pFileProxy).2
  else
    none

/-- The loop `for (iter = 0; iter < 2; iter++)` of `Logv`, with `left` passes to go.
`GetLocalTime iter` is the time the host reports in pass `iter`, and `message` is the full
text of the caller's format and arguments. -/
def Logv_loop (logger : Win32Logger) (thread_id : Nat) (GetLocalTime : Nat → SYSTEMTIME)
    (message : CppString) : Nat → Nat → σ → Option σ
  | 0, _, s => some s
  | left + 1, iter, s =>
    let bufsize := if iter = 0 then 500 else 30000
    let f := Logv_format bufsize (Logv_header (GetLocalTime iter) thread_id) message
    if f.2 ≥ bufsize then
      if iter = 0 then
        Logv_loop logger thread_id GetLocalTime message left (iter + 1) s
      else
        let n := Logv_newline f.1 (bufsize - 1)
        Logv_write api s logger bufsize n.1 n.2
    else
      let n := Logv_newline f.1 f.2
      Logv_write api s logger bufsize n.1 n.2

/-- `Win32Logger::Logv`.  The value is the host state on return; `none` stands for a failed
assertion. -/
def Logv (s : σ) (logger : Win32Logger) (thread_id : Nat) (GetLocalTime : Nat → SYSTEMTIME)
    (message : CppString) : Option σ :=
  Logv_loop api logger thread_id GetLocalTime message 2 0 s

/-- One `Append` of the bytes of `record` on the logger's file followed by one `Flush`,
keeping only the host state. -/
def appendThenFlush (s : σ) (logger : Win32Logger) (record : CppString) : σ :=
  (Win32WritableFile.Flush
    (Win32WritableFile.Append api s logger._pFileProxy (toBytes record)).2
    logger._pFileProxy).2

end Api

/-- The record of the specification for a text: the text, followed by a newline unless it
already ends in one. -/
def withNewline (text : CppString) : CppString :=
  if text.getLast? = some '\n' then text else text ++ ['\n']

/-! ## Clock -/

/-- `Win32Env::NowMicros`.  `tick` is the value of the host's millisecond counter.  Without
`USE_VISTA_API` the counter is `GetTickCount`, a `DWORD`, and the product with `1000` is
formed in 32 bits before the conversion to `uint64_t`; with it the counter is
`GetTickCount64` and the product is formed in 64 bits. -/
def NowMicros (USE_VISTA_API : Bool) (tick : Nat) : Nat :=
  if USE_VISTA_API then
    ((tick % 2 ^ 64) * 1000 % 2 ^ 64) % 2 ^ 64
  else
    ((tick % 2 ^ 32) * 1000 % 2 ^ 32) % 2 ^ 64

/-! ## Host models

Two small hosts instantiate the interface: one keeps a handle table and a flat set of
regular files, the other a tree of directories.  Both use the identity for the code-page
conversions. -/

/-- The text a model host has for an error code. -/
def modelFormatMessage (code : DWORD) : CppString :=
  if code = ERROR_FILE_NOT_FOUND then "The system cannot find the file specified.".toList
  else if code = ERROR_PATH_NOT_FOUND then "The system cannot find the path specified.".toList
  else if code = ERROR_INVALID_HANDLE then "The handle is invalid.".toList
  else if code = ERROR_SHARING_VIOLATION then
    "The process cannot access the file because it is being used by another process.".toList
  else if code = ERROR_ALREADY_EXISTS then
    "Cannot create a file when that file already exists.".toList
  else "Unknown error.".toList

/-- An entry of the handle table: the handle, the path it was opened on and the share mode
of the open. -/
structure OpenHandle where
  handle : HANDLE
  path : CppString
  share : DWORD
  deriving DecidableEq, Repr

/-- State of the handle host: the last error code, the open handles, a counter for fresh
handle values, and the paths of the regular files that exist. -/
structure HandleState where
  lastError : DWORD
  handles : List OpenHandle
  nextHandle : Nat
  files : List CppString
  deriving DecidableEq, Repr

/-- The handle host with nothing open and no file. -/
def HandleState.init : HandleState :=
  { lastError := 0, handles := [], nextHandle := 0, files := [] }

/-- Some handle is open on `path`. -/
def HandleState.hasOpen (s : HandleState) (path : CppString) : Bool :=
  s.handles.any (fun e => e.path == path)

/-- An open on `path` with share mode `share` conflicts with the open handles: an open with
no sharing conflicts with any handle on the path, any other open with a handle that was
itself opened with no sharing. -/
def HandleState.conflicts (s : HandleState) (path : CppString) (share : DWORD) : Bool :=
  s.handles.any (fun e => e.path == path && (share == 0 || e.share == 0))

/-- `CreateFileW` of the handle host.  Handle values are positive multiples of four.
Disposition `3` (`OPEN_EXISTING`) needs the file; the other dispositions create it. -/
def HandleState.CreateFileW (s : HandleState) (path : CppString) (args : OpenArgs) :
    HANDLE × HandleState :=
  if s.conflicts path args.share then
    (INVALID_HANDLE_VALUE, { s with lastError := ERROR_SHARING_VIOLATION })
  else if args.disposition = 3 ∧ ¬ path ∈ s.files then
    (INVALID_HANDLE_VALUE, { s with lastError := ERROR_FILE_NOT_FOUND })
  else
    let h := 4 * (s.nextHandle + 1)
    (h, { s with
            handles := { handle := h, path := path, share := args.share } :: s.handles
            nextHandle := s.nextHandle + 1
            files := if path ∈ s.files then s.files else path :: s.files })

/-- `CloseHandle` of the handle host: succeeds exactly on an open handle. -/
def HandleState.CloseHandle (s : HandleState) (h : HANDLE) : Bool × HandleState :=
  if s.handles.any (fun e => e.handle == h) then
    (true, { s with handles := s.handles.filter (fun e => e.handle != h) })
  else
    (false, { s with lastError := ERROR_INVALID_HANDLE })

/-- `WriteFile` of the handle host: all bytes are written through an open handle. -/
def HandleState.WriteFile (s : HandleState) (h : HANDLE) (_data : Slice) (n : DWORD) :
    (Bool × DWORD) × HandleState :=
  if s.handles.any (fun e => e.handle == h) then ((true, n), s)
  else ((false, 0), { s with lastError := ERROR_INVALID_HANDLE })

/-- `DeleteFileW` of the handle host. -/
def HandleState.DeleteFileW (s : HandleState) (path : CppString) : Bool × HandleState :=
  if ¬ path ∈ s.files then (false, { s with lastError := ERROR_FILE_NOT_FOUND })
  else if s.hasOpen path then (false, { s with lastError := ERROR_SHARING_VIOLATION })
  else (true, { s with files := s.files.filter (fun q => q != path) })

/-- `MoveFileW` of the handle host: fails on a missing source, and with
`ERROR_ALREADY_EXISTS` on an existing destination. -/
def HandleState.MoveFileW (s : HandleState) (src dst : CppString) : Bool × HandleState :=
  if ¬ src ∈ s.files then (false, { s with lastError := ERROR_FILE_NOT_FOUND })
  else if dst ∈ s.files then (false, { s with lastError := ERROR_ALREADY_EXISTS })
  else (true, { s with files := dst :: s.files.filter (fun q => q != src) })

/-- The handle host.  It has no directories: directory calls and enumeration fail with
`ERROR_PATH_NOT_FOUND`. -/
def handleHost : Win32Api HandleState :=
  { GetLastError := fun s => s.lastError
    FormatMessageW := modelFormatMessage
    MultiByteToWideChar := fun p => p
    WideCharToMultiByte := fun p => p
    CreateFileW := HandleState.CreateFileW
    CloseHandle := HandleState.CloseHandle
    WriteFile := HandleState.WriteFile
    MoveFileW := HandleState.MoveFileW
    DeleteFileW := HandleState.DeleteFileW
    GetFileAttributes := fun s _ =>
      (INVALID_FILE_ATTRIBUTES, { s with lastError := ERROR_PATH_NOT_FOUND })
    CreateDirectory := fun s _ => (false, { s with lastError := ERROR_PATH_NOT_FOUND })
    FindFirstFileW := fun s _ =>
      ((INVALID_HANDLE_VALUE, [], []), { s with lastError := ERROR_PATH_NOT_FOUND })
    FindClose := fun s _ => (false, { s with lastError := ERROR_INVALID_HANDLE }) }

/-- A writable file opened on the path `f` on the handle host with nothing open. -/
def openedFile : Win32WritableFile × HandleState :=
  Win32WritableFile.new handleHost HandleState.init "f".toList false

/-- The first `Close` of `openedFile`. -/
def firstClose : Status × Win32WritableFile × HandleState :=
  Win32WritableFile.Close handleHost openedFile.2 openedFile.1

/-- A second `Close`, on the object and host left by `firstClose`. -/
def secondClose : Status × Win32WritableFile × HandleState :=
  Win32WritableFile.Close handleHost firstClose.2.2 firstClose.2.1

/-- A character that separates path components for the host. -/
def isSeparator (c : Char) : Bool := c == '\\' || c == '/'

/-- Split a path at every separator (empty pieces included). -/
def splitPath : CppString → List CppString
  | [] => [[]]
  | c :: cs =>
    if isSeparator c then [] :: splitPath cs
    else
      match splitPath cs with
      | [] => [[c]]
      | w :: ws => (c :: w) :: ws

/-- The components of a path: its non-empty pieces, so that repeated and trailing
separators do not count. -/
def components (path : CppString) : List CppString :=
  (splitPath path).filter (fun w => !w.isEmpty)

/-- State of the directory host: the last error code and the directories that exist, each
as its list of components.  The directory with no component (the one names are resolved
against) always exists. -/
structure DirState where
  lastError : DWORD
  dirs : List (List CppString)
  deriving DecidableEq, Repr

/-- The directory host with no directory created yet. -/
def DirState.init : DirState := { lastError := 0, dirs := [] }

/-- The directory with components `c` exists. -/
def DirState.dirExists (s : DirState) (c : List CppString) : Bool :=
  c.isEmpty || s.dirs.contains c

/-- `GetFileAttributes` of the directory host. -/
def DirState.GetFileAttributes (s : DirState) (name : CppString) : DWORD × DirState :=
  if s.dirExists (components name) then (FILE_ATTRIBUTE_DIRECTORY, s)
  else (INVALID_FILE_ATTRIBUTES, { s with lastError := ERROR_PATH_NOT_FOUND })

/-- `CreateDirectory` of the directory host: fails with `ERROR_ALREADY_EXISTS` on an
existing directory, succeeds whenever the parent exists, and fails with
`ERROR_PATH_NOT_FOUND` otherwise. -/
def DirState.CreateDirectory (s : DirState) (name : CppString) : Bool × DirState :=
  if s.dirExists (components name) then
    (false, { s with lastError := ERROR_ALREADY_EXISTS })
  else if s.dirExists (components name).dropLast then
    (true, { s with dirs := components name :: s.dirs })
  else
    (false, { s with lastError := ERROR_PATH_NOT_FOUND })

/-- The directory host.  It has no regular files: file calls fail with
`ERROR_FILE_NOT_FOUND`, handle calls with `ERROR_INVALID_HANDLE`. -/
def dirHost : Win32Api DirState :=
  { GetLastError := fun s => s.lastError
    FormatMessageW := modelFormatMessage
    MultiByteToWideChar := fun p => p
    WideCharToMultiByte := fun p => p
    CreateFileW := fun s _ _ =>
      (INVALID_HANDLE_VALUE, { s with lastError := ERROR_FILE_NOT_FOUND })
    CloseHandle := fun s _ => (false, { s with lastError := ERROR_INVALID_HANDLE })
    WriteFile := fun s _ _ _ => ((false, 0), { s with lastError := ERROR_INVALID_HANDLE })
    MoveFileW := fun s _ _ => (false, { s with lastError := ERROR_FILE_NOT_FOUND })
    DeleteFileW := fun s _ => (false, { s with lastError := ERROR_FILE_NOT_FOUND })
    GetFileAttributes := DirState.GetFileAttributes
    CreateDirectory := DirState.CreateDirectory
    FindFirstFileW := fun s _ =>
      ((INVALID_HANDLE_VALUE, [], []), { s with lastError := ERROR_FILE_NOT_FOUND })
    FindClose := fun s _ => (false, { s with lastError := ERROR_INVALID_HANDLE }) }

/-- Every existing directory has an existing parent. -/
def DirState.Closed (s : DirState) : Prop :=
  ∀ c, c ∈ s.dirs → s.dirExists c.dropLast = true

/-- The result a call leaves when it returns OK on `st`, reaching the directory of `s`. -/
def CreatedFrom (st : DirState) (s : CppString) (r : Status × DirState) : Prop :=
  r.1 = Status.OK ∧ r.2.dirExists (components s) = true ∧ r.2.Closed ∧
    ∀ c, st.dirExists c = true → r.2.dirExists c = true

/-- A host whose enumeration of any directory yields the three names `x`, `y`, `z`; it
keeps no state and every other call fails. -/
def listingHost : Win32Api Unit :=
  { GetLastError := fun _ => 0
    FormatMessageW := modelFormatMessage
    MultiByteToWideChar := fun p => p
    WideCharToMultiByte := fun p => p
    CreateFileW := fun s _ _ => (INVALID_HANDLE_VALUE, s)
    CloseHandle := fun s _ => (false, s)
    WriteFile := fun s _ _ _ => ((false, 0), s)
    MoveFileW := fun s _ _ => (false, s)
    DeleteFileW := fun s _ => (false, s)
    GetFileAttributes := fun s _ => (INVALID_FILE_ATTRIBUTES, s)
    CreateDirectory := fun s _ => (false, s)
    FindFirstFileW := fun s _ => ((4, "x".toList, ["y".toList, "z".toList]), s)
    FindClose := fun s _ => (true, s) }

/-- A host that records the data of every `WriteFile` call, in order, and writes all of it;
it has nothing else and every other call fails. -/
def recordingHost : Win32Api (List Slice) :=
  { GetLastError := fun _ => 0
    FormatMessageW := modelFormatMessage
    MultiByteToWideChar := fun p => p
    WideCharToMultiByte := fun p => p
    CreateFileW := fun s _ _ => (INVALID_HANDLE_VALUE, s)
    CloseHandle := fun s _ => (false, s)
    WriteFile := fun s _ data n => ((true, n), s ++ [data])
    MoveFileW := fun s _ _ => (false, s)
    DeleteFileW := fun s _ => (false, s)
    GetFileAttributes := fun s _ => (INVALID_FILE_ATTRIBUTES, s)
    CreateDirectory := fun s _ => (false, s)
    FindFirstFileW := fun s _ => ((INVALID_HANDLE_VALUE, [], []), s)
    FindClose := fun s _ => (false, s) }

/-- A sample local time: 7 March 2024, 09:05:42.017. -/
def sampleTime : SYSTEMTIME :=
  { wYear := 2024, wMonth := 3, wDay := 7, wHour := 9, wMinute := 5, wSecond := 42,
    wMilliseconds := 17 }

/-- A logger on a file with handle `4`. -/
def sampleLogger : Win32Logger :=
  { _pFileProxy := { filename_ := "LOG".toList, hFile_ := 4 } }

/-! ## Theorems -/

/-- Win32Error never returns OK. -/
theorem Win32Error_not_ok {σ : Type} (api : Win32Api σ) (s : σ) (context : CppString) :
    (Win32Error api s context).ok = false := by
  unfold Win32Error
  split <;> rfl

/-- C1: `Append` returns OK exactly when the host write reports success and the byte count
it stored equals `data.size()`; in particular a successful host call that stored a smaller
count gives a non-OK status. -/
theorem C1_append_all_or_fail {σ : Type} (api : Win32Api σ) (s : σ) (f : Win32WritableFile)
    (data : Slice) :
    ((Win32WritableFile.Append api s f data).1 = Status.OK ↔
      ((api.WriteFile s f.hFile_ data (data.length % DWORD_MOD)).1.1 = true ∧
       (api.WriteFile s f.hFile_ data (data.length % DWORD_MOD)).1.2 % DWORD_MOD
          = data.length)) ∧
    (Win32WritableFile.Append api s f data).1.ok =
      ((api.WriteFile s f.hFile_ data (data.length % DWORD_MOD)).1.1 &&
       decide ((api.WriteFile s f.hFile_ data (data.length % DWORD_MOD)).1.2 % DWORD_MOD
          = data.length)) := by
  have hne : ∀ ctx t, Win32Error api t ctx ≠ Status.OK := by
    intro ctx t h
    have := Win32Error_not_ok api t ctx
    rw [h] at this
    cases this
  unfold Win32WritableFile.Append
  by_cases hok : (api.WriteFile s f.hFile_ data (data.length % DWORD_MOD)).1.1 = true
  · by_cases hr : (api.WriteFile s f.hFile_ data (data.length % DWORD_MOD)).1.2 % DWORD_MOD
        = data.length
    · simp [hok, hr, Status.ok]
    · simp [hok, hr, hne, Win32Error_not_ok]
  · simp [hok, hne, Win32Error_not_ok]

/-- For every host: when the first move fails with a code other than `0xb7`, `RenameFile`
returns OK. -/
theorem RenameFile_other_error {σ : Type} (api : Win32Api σ) (CurrentDir : CppString) (s : σ)
    (src target : CppString)
    (hfail : (api.MoveFileW s (ToWidePath api (ModifyPath CurrentDir src))
        (ToWidePath api (ModifyPath CurrentDir target))).1 = false)
    (herr : api.GetLastError (api.MoveFileW s (ToWidePath api (ModifyPath CurrentDir src))
        (ToWidePath api (ModifyPath CurrentDir target))).2 ≠ 0x000000b7) :
    (RenameFile api CurrentDir s src target).1 = Status.OK := by
  unfold RenameFile
  simp [hfail, herr]

/-- C2 (code at the failing input): on the handle host with no file, the move of the missing
source `a` fails with `ERROR_FILE_NOT_FOUND`, which is not `0xb7`, and `RenameFile` still
returns OK. -/
theorem C2_rename_drops_other_failures :
    (handleHost.MoveFileW HandleState.init "C:\\db\\a".toList "C:\\db\\b".toList).1 = false ∧
    handleHost.GetLastError
      (handleHost.MoveFileW HandleState.init "C:\\db\\a".toList "C:\\db\\b".toList).2
        = ERROR_FILE_NOT_FOUND ∧
    (RenameFile handleHost "C:\\db".toList HandleState.init "\\a".toList "\\b".toList).1
        = Status.OK := by
  decide

/-- For every host: `NewRandomAccessFile`, `NewWritableFile`, `NewAppendableFile`,
`NewLogger` and `LockFile` store the null pointer whenever they return a non-OK status. -/
theorem siblings_null_on_failure {σ : Type} (api : Win32Api σ) (CurrentDir : CppString)
    (s : σ) (fname : CppString) :
    (∀ r, (NewRandomAccessFile api CurrentDir s fname r).1 ≠ Status.OK →
      (NewRandomAccessFile api CurrentDir s fname r).2.1 = none) ∧
    (∀ r, (NewWritableFile api CurrentDir s fname r).1 ≠ Status.OK →
      (NewWritableFile api CurrentDir s fname r).2.1 = none) ∧
    (∀ r, (NewAppendableFile api CurrentDir s fname r).1 ≠ Status.OK →
      (NewAppendableFile api CurrentDir s fname r).2.1 = none) ∧
    (∀ r, (NewLogger api CurrentDir s fname r).1 ≠ Status.OK →
      (NewLogger api CurrentDir s fname r).2.1 = none) ∧
    (∀ r, (LockFile api CurrentDir s fname r).1 ≠ Status.OK →
      (LockFile api CurrentDir s fname r).2.1 = none) := by
  refine ⟨?_, ?_, ?_, ?_, ?_⟩
  · intro r
    simp only [NewRandomAccessFile]
    split <;> simp
  · intro r
    simp only [NewWritableFile]
    split <;> simp
  · intro r
    simp only [NewAppendableFile]
    split <;> simp
  · intro r
    simp only [NewLogger]
    split <;> simp
  · intro r
    simp only [LockFile]
    split <;> simp

/-- For every host: when the open fails, `NewSequentialFile` returns a non-OK status and
`*result` is what it was on entry. -/
theorem NewSequentialFile_failure {σ : Type} (api : Win32Api σ) (CurrentDir : CppString)
    (s : σ) (fname : CppString) (r : Option Win32SequentialFile)
    (hfail : (api.CreateFileW s (ToWidePath api (ModifyPath CurrentDir fname))
        sequentialOpenArgs).1 = INVALID_HANDLE_VALUE) :
    (NewSequentialFile api CurrentDir s fname r).1.ok = false ∧
    (NewSequentialFile api CurrentDir s fname r).2.1 = r := by
  simp [NewSequentialFile, Win32SequentialFile.new, Win32SequentialFile._Init, hfail,
    Win32SequentialFile.isEnable, Win32Error_not_ok]

/-- C3 (code at the failing input): opening the missing file `a` for sequential reading
fails with a NotFound status and leaves the caller's previous pointer in `*result`, whereas
`NewRandomAccessFile` on the same input stores the null pointer. -/
theorem C3_sequential_keeps_stale_result :
    (NewSequentialFile handleHost "C:\\db".toList HandleState.init "a".toList
        (some { filename_ := "old".toList, hFile_ := 4 })).1.ok = false ∧
    (NewSequentialFile handleHost "C:\\db".toList HandleState.init "a".toList
        (some { filename_ := "old".toList, hFile_ := 4 })).2.1
      = some { filename_ := "old".toList, hFile_ := 4 } ∧
    (NewRandomAccessFile handleHost "C:\\db".toList HandleState.init "a".toList
        (some { hFile_ := 4, filename_ := "old".toList })).2.1 = none := by
  decide

/-- C4: `Win32Error` gives NotFound exactly when the last error code is
`ERROR_FILE_NOT_FOUND` and IOError for every other code, never OK, and in both cases the
status carries the context string and the host text of the last error. -/
theorem C4_win32error_classification {σ : Type} (api : Win32Api σ) (s : σ)
    (context : CppString) :
    ((Win32Error api s context).IsNotFound = true ↔
        api.GetLastError s = ERROR_FILE_NOT_FOUND) ∧
    ((Win32Error api s context).IsIOError = true ↔
        api.GetLastError s ≠ ERROR_FILE_NOT_FOUND) ∧
    (Win32Error api s context).ok = false ∧
    (Win32Error api s context =
      if api.GetLastError s = ERROR_FILE_NOT_FOUND then
        Status.NotFound context
          (api.WideCharToMultiByte (api.FormatMessageW (api.GetLastError s)))
      else
        Status.IOError context
          (api.WideCharToMultiByte (api.FormatMessageW (api.GetLastError s)))) := by
  unfold Win32Error GetLastErrSz ToNarrowPath
  by_cases h : api.GetLastError s = ERROR_FILE_NOT_FOUND
  · simp [h, Status.IsNotFound, Status.IsIOError, Status.ok]
  · simp [h, Status.IsNotFound, Status.IsIOError, Status.ok]

/-- After a `Close` that returned OK the handle field is the invalid value; a further
`Close` returns OK exactly when the host accepts `CloseHandle(INVALID_HANDLE_VALUE)`, and
leaves the object as it is either way. -/
theorem Close_after_close {σ : Type} (api : Win32Api σ) (s : σ) (f : Win32WritableFile)
    (h : (Win32WritableFile.Close api s f).1 = Status.OK) :
    (Win32WritableFile.Close api s f).2.1.hFile_ = INVALID_HANDLE_VALUE ∧
    ∀ t : σ,
      ((Win32WritableFile.Close api t (Win32WritableFile.Close api s f).2.1).1 = Status.OK ↔
        (api.CloseHandle t INVALID_HANDLE_VALUE).1 = true) ∧
      (Win32WritableFile.Close api t (Win32WritableFile.Close api s f).2.1).2.1
        = (Win32WritableFile.Close api s f).2.1 := by
  have hne : ∀ ctx t, Win32Error api t ctx ≠ Status.OK := by
    intro ctx t hx
    have := Win32Error_not_ok api t ctx
    rw [hx] at this
    cases this
  have hfirst : (Win32WritableFile.Close api s f).2.1
      = { f with hFile_ := INVALID_HANDLE_VALUE } := by
    unfold Win32WritableFile.Close at h ⊢
    by_cases hc : (api.CloseHandle s f.hFile_).1 = true
    · simp [hc]
    · simp [hc, hne] at h
  rw [hfirst]
  refine ⟨rfl, fun t => ?_⟩
  unfold Win32WritableFile.Close
  by_cases hc : (api.CloseHandle t INVALID_HANDLE_VALUE).1 = true
  · simp [hc]
  · simp [hc, hne]

/-- C5 (code at the failing input): on the handle host a writable file opens with a valid
handle and its first `Close` returns OK and marks the handle field; the second `Close` hands
`INVALID_HANDLE_VALUE` to `CloseHandle`, which the host rejects, and returns a non-OK
status.  The object is unchanged by the second `Close`, and the destructor then makes no
host call. -/
theorem C5_second_close_not_ok :
    openedFile.1.isEnable = true ∧
    firstClose.1 = Status.OK ∧
    firstClose.2.1.hFile_ = INVALID_HANDLE_VALUE ∧
    firstClose.2.2.handles = [] ∧
    secondClose.1 = Status.IOError "Win32WritableFile.Close::CloseHandle: f".toList
        "The handle is invalid.".toList ∧
    secondClose.2.1 = firstClose.2.1 ∧
    Win32WritableFile.destroy handleHost secondClose.2.2 secondClose.2.1 = secondClose.2.2 := by
  decide

/-- The loop of `GetChildren` appends the narrowed names to the prior content. -/
theorem GetChildren_loop_eq {σ : Type} (api : Win32Api σ) (pending : List CppString) :
    ∀ (result : List CppString) (cFileName : CppString),
      GetChildren_loop api result cFileName pending
        = result ++ (cFileName :: pending).map (ToNarrowPath api) := by
  induction pending with
  | nil => intro result cFileName; simp [GetChildren_loop]
  | cons next pending ih =>
    intro result cFileName
    simp [GetChildren_loop, ih]

/-- For every host: when the enumeration opens, `GetChildren` returns OK and `*result` is
its prior content followed by the narrowed names of the enumeration; otherwise it returns
IOError and leaves `*result` alone. -/
theorem GetChildren_eq {σ : Type} (api : Win32Api σ) (CurrentDir : CppString) (s : σ)
    (dir : CppString) (result : List CppString) :
    ((api.FindFirstFileW s
          (ToWidePath api (ModifyPath CurrentDir dir ++ "\\*.*".toList))).1.1 ≠ NULL ∧
        (api.FindFirstFileW s
          (ToWidePath api (ModifyPath CurrentDir dir ++ "\\*.*".toList))).1.1
            ≠ INVALID_HANDLE_VALUE →
      (GetChildren api CurrentDir s dir result).1 = Status.OK ∧
      (GetChildren api CurrentDir s dir result).2.1 = result ++
        ((api.FindFirstFileW s
            (ToWidePath api (ModifyPath CurrentDir dir ++ "\\*.*".toList))).1.2.1 ::
          (api.FindFirstFileW s
            (ToWidePath api (ModifyPath CurrentDir dir ++ "\\*.*".toList))).1.2.2).map
          (ToNarrowPath api)) ∧
    (¬ ((api.FindFirstFileW s
          (ToWidePath api (ModifyPath CurrentDir dir ++ "\\*.*".toList))).1.1 ≠ NULL ∧
        (api.FindFirstFileW s
          (ToWidePath api (ModifyPath CurrentDir dir ++ "\\*.*".toList))).1.1
            ≠ INVALID_HANDLE_VALUE) →
      (GetChildren api CurrentDir s dir result).1
        = Status.IOError dir "Could not get children.".toList ∧
      (GetChildren api CurrentDir s dir result).2.1 = result) := by
  constructor
  · intro h
    unfold GetChildren
    simp only [h, and_self, if_true, GetChildren_loop_eq, ne_eq, not_false_eq_true]
  · intro h
    unfold GetChildren
    simp only [h, if_false, and_self]

/-- C10 (code at the failing input): with `stale` in the result vector on entry and a host
enumeration that yields `x`, `y`, `z`, `GetChildren` returns OK with four elements, the
old one first. -/
theorem C10_children_keeps_prior_content :
    GetChildren listingHost "C:\\db".toList () "d".toList ["stale".toList]
      = (Status.OK, ["stale".toList, "x".toList, "y".toList, "z".toList], ()) := by
  decide

/-! ### Path resolution -/

/-- `std::replace` of `/` by `\` is the reference normalisation. -/
theorem replace_eq_normalize (s : CppString) : replace s '/' '\\' = normalize s := rfl

/-- Normalisation distributes over concatenation. -/
theorem normalize_append (a b : CppString) :
    normalize (a ++ b) = normalize a ++ normalize b := by
  simp [normalize]

/-- Normalising twice is normalising once. -/
theorem normalize_idem (a : CppString) : normalize (normalize a) = normalize a := by
  induction a with
  | nil => rfl
  | cons c cs ih =>
    have hc : normalize (c :: cs) = (if c = '/' then '\\' else c) :: normalize cs := rfl
    rw [hc]
    have hd : ∀ d, normalize (d :: normalize cs)
        = (if d = '/' then '\\' else d) :: normalize (normalize cs) := fun _ => rfl
    rw [hd, ih]
    by_cases h : c = '/'
    · simp [h]
    · simp [h]

/-- A string without `/` is its own normal form. -/
theorem normalize_of_no_slash (a : CppString) (h : ∀ c ∈ a, c ≠ '/') : normalize a = a := by
  induction a with
  | nil => rfl
  | cons c cs ih =>
    have hc : normalize (c :: cs) = (if c = '/' then '\\' else c) :: normalize cs := rfl
    rw [hc, ih (fun d hd => h d (List.mem_cons_of_mem _ hd))]
    simp [h c (List.mem_cons_self _ _)]

/-- A normal form has no `/`. -/
theorem normalize_no_slash (a : CppString) : ∀ c ∈ normalize a, c ≠ '/' := by
  intro c hc
  simp only [normalize, List.mem_map] at hc
  obtain ⟨d, _, hd⟩ := hc
  by_cases h : d = '/'
  · simp only [h, if_true] at hd
    rw [← hd]
    decide
  · simp only [h, if_false] at hd
    rw [← hd]
    exact h

/-- The test `path[0] == '/' || path[0] == '\\'` is the predicate `startsWithSeparator`. -/
theorem at0_separator_iff (p : CppString) :
    (at0 p = '/' ∨ at0 p = '\\') ↔ startsWithSeparator p := by
  cases p with
  | nil =>
    constructor
    · intro h
      rcases h with h | h
      · exact absurd h (by decide)
      · exact absurd h (by decide)
    · rintro ⟨c, rest, h, _⟩
      cases h
  | cons c cs =>
    constructor
    · intro h
      exact ⟨c, cs, rfl, h⟩
    · rintro ⟨d, rest, h, hd⟩
      cases h
      exact hd

/-- `ModifyPath` on a path that starts with a separator. -/
theorem ModifyPath_of_separator (CurrentDir p : CppString) (h : startsWithSeparator p) :
    ModifyPath CurrentDir p = normalize (CurrentDir ++ p) := by
  unfold ModifyPath
  simp only [(at0_separator_iff p).mpr h, if_true, replace_eq_normalize]

/-- `ModifyPath` on a path that does not start with a separator. -/
theorem ModifyPath_of_not_separator (CurrentDir p : CppString)
    (h : ¬ startsWithSeparator p) : ModifyPath CurrentDir p = normalize p := by
  unfold ModifyPath
  have h' : ¬ (at0 p = '/' ∨ at0 p = '\\') := fun hx => h ((at0_separator_iff p).mp hx)
  simp only [h', if_false, replace_eq_normalize]

/-- Normalisation keeps the property of starting with a separator. -/
theorem startsWithSeparator_normalize (p : CppString) :
    startsWithSeparator (normalize p) ↔ startsWithSeparator p := by
  cases p with
  | nil =>
    constructor
    · rintro ⟨c, rest, h, _⟩
      cases h
    · rintro ⟨c, rest, h, _⟩
      cases h
  | cons c cs =>
    have hc : normalize (c :: cs) = (if c = '/' then '\\' else c) :: normalize cs := rfl
    rw [hc]
    constructor
    · rintro ⟨d, rest, h, hd⟩
      refine ⟨c, cs, rfl, ?_⟩
      simp only [List.cons.injEq] at h
      by_cases hslash : c = '/'
      · exact Or.inl hslash
      · simp only [hslash, if_false] at h
        rw [h.1]
        exact hd
    · rintro ⟨d, rest, h, hd⟩
      simp only [List.cons.injEq] at h
      refine ⟨_, _, rfl, ?_⟩
      by_cases hslash : c = '/'
      · simp [hslash]
      · rw [if_neg hslash, h.1]
        exact hd

/-- C7 (the claim as stated fails): with the base directory `C:/app`, which is what
`GetCurrentDir` cuts from the module name `C:/app\tool.exe`, the path `/x` starts with a
separator and `ModifyPath` gives `C:\app\x`, not the base directory followed by `\x`. -/
theorem C7_counterexample :
    GetCurrentDir "C:/app\\tool.exe".toList = some "C:/app".toList ∧
    startsWithSeparator "/x".toList ∧
    ModifyPath "C:/app".toList "/x".toList = "C:\\app\\x".toList ∧
    ModifyPath "C:/app".toList "/x".toList ≠ "C:/app".toList ++ normalize "/x".toList :=
  ⟨by decide, ⟨'/', "x".toList, rfl, Or.inl rfl⟩, by decide, by decide⟩

/-- C7 (amended): for a path that starts with a separator `ModifyPath` gives the normal form
of the base directory followed by the normal form of the path, which is the base directory
followed by the normal form of the path whenever the base directory has no `/`; for a path
that does not start with a separator it gives the normal form of the path. -/
theorem C7_modifyPath_reference (CurrentDir p : CppString) :
    (startsWithSeparator p →
      ModifyPath CurrentDir p = normalize CurrentDir ++ normalize p) ∧
    (startsWithSeparator p → (∀ c ∈ CurrentDir, c ≠ '/') →
      ModifyPath CurrentDir p = CurrentDir ++ normalize p) ∧
    (¬ startsWithSeparator p → ModifyPath CurrentDir p = normalize p) := by
  refine ⟨?_, ?_, ?_⟩
  · intro h
    rw [ModifyPath_of_separator CurrentDir p h, normalize_append]
  · intro h hcd
    rw [ModifyPath_of_separator CurrentDir p h, normalize_append,
      normalize_of_no_slash CurrentDir hcd]
  · intro h
    exact ModifyPath_of_not_separator CurrentDir p h

/-- C7 (amended) at the base directory `C:\app` and the paths `/x` and `x/y`. -/
theorem C7_modifyPath_reference_witness :
    ModifyPath "C:\\app".toList "/x".toList = "C:\\app".toList ++ normalize "/x".toList ∧
    ModifyPath "C:\\app".toList "x/y".toList = normalize "x/y".toList :=
  ⟨(C7_modifyPath_reference "C:\\app".toList "/x".toList).2.1
      ⟨'/', "x".toList, rfl, Or.inl rfl⟩ (by decide),
   (C7_modifyPath_reference "C:\\app".toList "x/y".toList).2.2
      (by rintro ⟨c, rest, h, hc⟩; cases h; revert hc; decide)⟩

/-- C8 (the claim as stated fails): with the base directory `\\srv\share`, which is what
`GetCurrentDir` cuts from the module name `\\srv\share\app.exe`, resolving `/x` twice
prepends the base directory twice. -/
theorem C8_counterexample :
    GetCurrentDir "\\\\srv\\share\\app.exe".toList = some "\\\\srv\\share".toList ∧
    ModifyPath "\\\\srv\\share".toList "/x".toList = "\\\\srv\\share\\x".toList ∧
    ModifyPath "\\\\srv\\share".toList (ModifyPath "\\\\srv\\share".toList "/x".toList)
      = "\\\\srv\\share\\\\srv\\share\\x".toList ∧
    ModifyPath "\\\\srv\\share".toList (ModifyPath "\\\\srv\\share".toList "/x".toList)
      ≠ ModifyPath "\\\\srv\\share".toList "/x".toList := by
  decide

/-- C8 (amended): when the base directory does not itself start with a separator, or the
path does not start with one, resolving a resolved path changes nothing. -/
theorem C8_modifyPath_idempotent (CurrentDir p : CppString)
    (h : ¬ startsWithSeparator CurrentDir ∨ ¬ startsWithSeparator p) :
    ModifyPath CurrentDir (ModifyPath CurrentDir p) = ModifyPath CurrentDir p := by
  by_cases hp : startsWithSeparator p
  · have hcd : ¬ startsWithSeparator CurrentDir := by
      rcases h with h | h
      · exact h
      · exact absurd hp h
    rw [ModifyPath_of_separator CurrentDir p hp]
    cases hC : CurrentDir with
    | nil =>
      have hs : startsWithSeparator (normalize ([] ++ p)) := by
        simpa using (startsWithSeparator_normalize p).mpr hp
      rw [ModifyPath_of_separator [] _ hs]
      simp [normalize_idem]
    | cons d ds =>
      have hns : ¬ startsWithSeparator (normalize (d :: ds ++ p)) := by
        intro hx
        have hx' := (startsWithSeparator_normalize (d :: ds ++ p)).mp hx
        apply hcd
        rw [hC]
        obtain ⟨c, rest, hc, hsep⟩ := hx'
        simp only [List.cons_append, List.cons.injEq] at hc
        exact ⟨c, ds, by rw [hc.1], hsep⟩
      rw [ModifyPath_of_not_separator _ _ hns, normalize_idem]
  · rw [ModifyPath_of_not_separator CurrentDir p hp]
    have hns : ¬ startsWithSeparator (normalize p) :=
      fun hx => hp ((startsWithSeparator_normalize p).mp hx)
    rw [ModifyPath_of_not_separator _ _ hns, normalize_idem]

/-- C8 (amended) at the base directory `C:\app` and the path `/x`. -/
theorem C8_modifyPath_idempotent_witness :
    (¬ startsWithSeparator "C:\\app".toList ∨ ¬ startsWithSeparator "/x".toList) ∧
    ModifyPath "C:\\app".toList (ModifyPath "C:\\app".toList "/x".toList)
      = ModifyPath "C:\\app".toList "/x".toList :=
  ⟨Or.inl (by rintro ⟨c, rest, h, hc⟩; cases h; revert hc; decide),
   C8_modifyPath_idempotent "C:\\app".toList "/x".toList
     (Or.inl (by rintro ⟨c, rest, h, hc⟩; cases h; revert hc; decide))⟩

/-! ### File lock -/

/-- Fresh handle values of the handle host are neither null nor the invalid value. -/
theorem fresh_handle_valid (n : Nat) :
    4 * (n + 1) ≠ NULL ∧ 4 * (n + 1) ≠ INVALID_HANDLE_VALUE := by
  unfold NULL INVALID_HANDLE_VALUE
  constructor <;> omega

/-- An open with no sharing conflicts exactly when the path has an open handle. -/
theorem conflicts_no_sharing (s : HandleState) (path : CppString) :
    s.conflicts path 0 = s.hasOpen path := by
  unfold HandleState.conflicts HandleState.hasOpen
  simp

/-- On the handle host `LockFile` fails with IOError and a null token when the path has an
open handle. -/
theorem LockFile_held (CurrentDir : CppString) (s : HandleState) (fname : CppString)
    (prior : Option Win32FileLock)
    (h : s.hasOpen (ModifyPath CurrentDir fname) = true) :
    (LockFile handleHost CurrentDir s fname prior).1
        = Status.IOError (ModifyPath CurrentDir fname) "Could not lock file.".toList ∧
    (LockFile handleHost CurrentDir s fname prior).2.1 = none := by
  have hc := conflicts_no_sharing s (ModifyPath CurrentDir fname)
  rw [h] at hc
  simp [LockFile, Win32FileLock.new, Win32FileLock._Init, ToWidePath, handleHost,
    HandleState.CreateFileW, lockOpenArgs, hc, Win32FileLock.isEnable, NULL,
    INVALID_HANDLE_VALUE]

/-- On the handle host `LockFile` succeeds with a fresh handle when the path has no open
handle. -/
theorem LockFile_free (CurrentDir : CppString) (s : HandleState) (fname : CppString)
    (prior : Option Win32FileLock)
    (h : s.hasOpen (ModifyPath CurrentDir fname) = false) :
    LockFile handleHost CurrentDir s fname prior
      = (Status.OK,
         some { hFile_ := 4 * (s.nextHandle + 1), filename_ := ModifyPath CurrentDir fname },
         { s with
            handles := { handle := 4 * (s.nextHandle + 1),
                         path := ModifyPath CurrentDir fname, share := 0 } :: s.handles
            nextHandle := s.nextHandle + 1
            files := if ModifyPath CurrentDir fname ∈ s.files then s.files
                     else ModifyPath CurrentDir fname :: s.files }) := by
  have hc := conflicts_no_sharing s (ModifyPath CurrentDir fname)
  rw [h] at hc
  have hv := fresh_handle_valid s.nextHandle
  have h0 : 4 * (s.nextHandle + 1) ≠ 0 := hv.1
  simp [LockFile, Win32FileLock.new, Win32FileLock._Init, ToWidePath, handleHost,
    HandleState.CreateFileW, lockOpenArgs, hc, Win32FileLock.isEnable, NULL, hv.2, h0]



/-- C6: on the handle host, where an open with no sharing fails exactly when the path has an
open handle, once `LockFile` has returned OK with a token, `LockFile` on the same path
returns IOError with a null token while the token is held, and after `UnlockFile` on the
token `LockFile` on the same path returns OK with a non-null token. -/
theorem C6_lock_exclusive_until_unlock (CurrentDir : CppString) (s : HandleState)
    (fname : CppString) (prior : Option Win32FileLock) (tok : Win32FileLock)
    (s1 : HandleState)
    (h : LockFile handleHost CurrentDir s fname prior = (Status.OK, some tok, s1))
    (prior2 prior3 : Option Win32FileLock) :
    (∀ (t : HandleState) (path : CppString),
      (t.CreateFileW path lockOpenArgs).1 = INVALID_HANDLE_VALUE ↔ t.hasOpen path = true) ∧
    (LockFile handleHost CurrentDir s1 fname prior2).1
        = Status.IOError (ModifyPath CurrentDir fname) "Could not lock file.".toList ∧
    (LockFile handleHost CurrentDir s1 fname prior2).2.1 = none ∧
    (UnlockFile handleHost s1 (some tok)).1 = Status.OK ∧
    (LockFile handleHost CurrentDir (UnlockFile handleHost s1 (some tok)).2 fname prior3).1
        = Status.OK ∧
    ∃ tok2, (LockFile handleHost CurrentDir (UnlockFile handleHost s1 (some tok)).2 fname
        prior3).2.1 = some tok2 := by
  have hfree : s.hasOpen (ModifyPath CurrentDir fname) = false := by
    cases hx : s.hasOpen (ModifyPath CurrentDir fname) with
    | false => rfl
    | true =>
      have := (LockFile_held CurrentDir s fname prior hx).1
      rw [h] at this
      cases this
  rw [LockFile_free CurrentDir s fname prior hfree] at h
  simp only [Prod.mk.injEq, Option.some.injEq, true_and] at h
  obtain ⟨htok, hs1⟩ := h
  have hheld : s1.hasOpen (ModifyPath CurrentDir fname) = true := by
    rw [← hs1]
    simp [HandleState.hasOpen]
  have hun : (UnlockFile handleHost s1 (some tok)).2.hasOpen (ModifyPath CurrentDir fname)
      = false := by
    rw [← hs1, ← htok]
    simp only [UnlockFile, Win32FileLock._CleanUp, handleHost]
    unfold HandleState.CloseHandle
    simp only [List.any_cons, beq_self_eq_true, Bool.true_or, if_true]
    unfold HandleState.hasOpen at hfree ⊢
    rw [Bool.eq_false_iff] at hfree ⊢
    intro hx
    apply hfree
    rw [List.any_eq_true] at hx ⊢
    obtain ⟨e, he, hpe⟩ := hx
    simp only [List.filter_cons, bne_self_eq_false, Bool.false_eq_true, if_false] at he
    exact ⟨e, (List.mem_filter.mp he).1, hpe⟩
  refine ⟨?_, (LockFile_held CurrentDir s1 fname prior2 hheld).1,
    (LockFile_held CurrentDir s1 fname prior2 hheld).2, rfl, ?_, ?_⟩
  · intro t path
    have hc := conflicts_no_sharing t path
    have hv := fresh_handle_valid t.nextHandle
    unfold HandleState.CreateFileW
    cases hx : t.hasOpen path with
    | true =>
      rw [hx] at hc
      simp [hc, lockOpenArgs]
    | false =>
      rw [hx] at hc
      simp [hc, lockOpenArgs, hv.2]
  · rw [LockFile_free CurrentDir _ fname prior3 hun]
  · rw [LockFile_free CurrentDir _ fname prior3 hun]
    exact ⟨_, rfl⟩

/-- C6 at the path `LOCK` on the handle host with nothing open. -/
theorem C6_lock_exclusive_until_unlock_witness :
    LockFile handleHost "C:\\db".toList HandleState.init "LOCK".toList none
      = (Status.OK, some { hFile_ := 4, filename_ := "LOCK".toList },
          { lastError := 0,
            handles := [{ handle := 4, path := "LOCK".toList, share := 0 }],
            nextHandle := 1, files := ["LOCK".toList] }) ∧
    (LockFile handleHost "C:\\db".toList
        { lastError := 0,
          handles := [{ handle := 4, path := "LOCK".toList, share := 0 }],
          nextHandle := 1, files := ["LOCK".toList] } "LOCK".toList none).2.1 = none ∧
    (LockFile handleHost "C:\\db".toList
        (UnlockFile handleHost
          { lastError := 0,
            handles := [{ handle := 4, path := "LOCK".toList, share := 0 }],
            nextHandle := 1, files := ["LOCK".toList] }
          (some { hFile_ := 4, filename_ := "LOCK".toList })).2 "LOCK".toList none).1
      = Status.OK :=
  ⟨by decide,
   (C6_lock_exclusive_until_unlock "C:\\db".toList HandleState.init "LOCK".toList none
      { hFile_ := 4, filename_ := "LOCK".toList }
      { lastError := 0,
        handles := [{ handle := 4, path := "LOCK".toList, share := 0 }],
        nextHandle := 1, files := ["LOCK".toList] } (by decide) none none).2.2.1,
   (C6_lock_exclusive_until_unlock "C:\\db".toList HandleState.init "LOCK".toList none
      { hFile_ := 4, filename_ := "LOCK".toList }
      { lastError := 0,
        handles := [{ handle := 4, path := "LOCK".toList, share := 0 }],
        nextHandle := 1, files := ["LOCK".toList] } (by decide) none none).2.2.2.2.1⟩

/-! ### Directory creation -/

/-- Splitting never gives the empty list of pieces. -/
theorem splitPath_ne_nil (s : CppString) : splitPath s ≠ [] := by
  cases s with
  | nil => simp [splitPath]
  | cons c cs =>
    unfold splitPath
    split
    · simp
    · split <;> simp

/-- Splitting at a separator in the middle. -/
theorem splitPath_append_sep (p : CppString) (c : Char) (t : CppString)
    (hc : isSeparator c = true) :
    splitPath (p ++ c :: t) = splitPath p ++ splitPath t := by
  induction p with
  | nil => simp [splitPath, hc]
  | cons a p ih =>
    simp only [List.cons_append]
    by_cases ha : isSeparator a = true
    · simp [splitPath, ha, ih]
    · cases hsp : splitPath p with
      | nil => exact absurd hsp (splitPath_ne_nil p)
      | cons w ws =>
        simp [splitPath, ha, ih, hsp]

/-- A string without separators is a single piece. -/
theorem splitPath_no_sep (t : CppString) (h : ∀ x ∈ t, isSeparator x = false) :
    splitPath t = [t] := by
  induction t with
  | nil => rfl
  | cons a t ih =>
    have ha := h a (List.mem_cons_self _ _)
    have := ih (fun x hx => h x (List.mem_cons_of_mem _ hx))
    simp [splitPath, ha, this]

/-- Components of a path cut at a separator. -/
theorem components_append_sep (p : CppString) (c : Char) (t : CppString)
    (hc : isSeparator c = true) :
    components (p ++ c :: t) = components p ++ components t := by
  unfold components
  rw [splitPath_append_sep p c t hc, List.filter_append]

/-- Components of a string without separators. -/
theorem components_no_sep (t : CppString) (h : ∀ x ∈ t, isSeparator x = false) :
    components t = [] ∨ components t = [t] := by
  unfold components
  rw [splitPath_no_sep t h]
  cases t with
  | nil => left; rfl
  | cons a t => right; rfl

/-- The index found by `lastIndexOf` is within the string. -/
theorem lastIndexOf_lt (p : Char → Bool) (s : CppString) :
    ∀ i, lastIndexOf p s = some i → i < s.length := by
  induction s with
  | nil => intro i hi; simp [lastIndexOf] at hi
  | cons c cs ih =>
    intro i hi
    unfold lastIndexOf at hi
    cases hcs : lastIndexOf p cs with
    | some j =>
      rw [hcs] at hi
      have hj := ih j hcs
      simp only [Option.some.injEq] at hi
      simp only [List.length_cons]
      omega
    | none =>
      rw [hcs] at hi
      by_cases hp : p c = true
      · simp only [hp, if_true, Option.some.injEq] at hi
        simp only [List.length_cons]
        omega
      · simp [hp] at hi

/-- When `lastIndexOf` finds nothing, no element satisfies the predicate. -/
theorem lastIndexOf_none (p : Char → Bool) (s : CppString) :
    lastIndexOf p s = none → ∀ x ∈ s, p x = false := by
  induction s with
  | nil => intro _ x hx; cases hx
  | cons c cs ih =>
    intro h x hx
    unfold lastIndexOf at h
    cases hcs : lastIndexOf p cs with
    | some j => rw [hcs] at h; cases h
    | none =>
      rw [hcs] at h
      by_cases hp : p c = true
      · simp [hp] at h
      · rcases List.mem_cons.mp hx with hx | hx
        · rw [hx]; simpa using hp
        · exact ih hcs x hx

/-- The index found by `lastIndexOf` splits the string at a matching element after which
nothing matches. -/
theorem lastIndexOf_some (p : Char → Bool) (s : CppString) :
    ∀ i, lastIndexOf p s = some i →
      ∃ c t, s = s.take i ++ c :: t ∧ p c = true ∧ ∀ x ∈ t, p x = false := by
  induction s with
  | nil => intro i hi; simp [lastIndexOf] at hi
  | cons a cs ih =>
    intro i hi
    unfold lastIndexOf at hi
    cases hcs : lastIndexOf p cs with
    | some j =>
      rw [hcs] at hi
      simp only [Option.some.injEq] at hi
      obtain ⟨c, t, hs, hc, ht⟩ := ih j hcs
      refine ⟨c, t, ?_, hc, ht⟩
      rw [← hi]
      simp only [List.take_succ_cons, List.cons_append]
      rw [← hs]
    | none =>
      rw [hcs] at hi
      by_cases hp : p a = true
      · simp only [hp, if_true, Option.some.injEq] at hi
        refine ⟨a, cs, ?_, hp, lastIndexOf_none p cs hcs⟩
        rw [← hi]
        simp
      · simp [hp] at hi

/-- In a closed tree the parent of an existing directory exists. -/
theorem DirState.parent_exists (st : DirState) (hcl : st.Closed) (c : List CppString)
    (hc : st.dirExists c = true) : st.dirExists c.dropLast = true := by
  cases c with
  | nil => simp [DirState.dirExists]
  | cons a c =>
    apply hcl
    simpa [DirState.dirExists] using hc

/-- In a closed tree every ancestor of an existing directory exists. -/
theorem DirState.prefix_exists (st : DirState) (hcl : st.Closed) :
    ∀ (n : Nat) (c : List CppString), c.length = n → st.dirExists c = true →
      ∀ a, a <+: c → st.dirExists a = true := by
  intro n
  induction n with
  | zero =>
    intro c hn _ a ha
    have hc : c = [] := List.length_eq_zero.mp hn
    rw [hc] at ha
    rw [List.prefix_nil.mp ha]
    rfl
  | succ n ih =>
    intro c hn hc a ha
    by_cases hac : a = c
    · rw [hac]; exact hc
    · have hne : c ≠ [] := by
        intro h0
        rw [h0] at hn
        cases hn
      have hd : a <+: c.dropLast := by
        obtain ⟨t, ht⟩ := ha
        have htne : t ≠ [] := by
          intro h0
          apply hac
          rw [← ht, h0, List.append_nil]
        refine ⟨t.dropLast, ?_⟩
        rw [← ht, List.dropLast_append_of_ne_nil _ htne]
      exact ih c.dropLast (by rw [List.length_dropLast, hn]; rfl)
        (DirState.parent_exists st hcl c hc) a hd

/-- The tail of `CreateDirInner` on an existing directory: `ERROR_ALREADY_EXISTS` is
tolerated. -/
theorem CreateDirInner_create_existing (st : DirState) (s : CppString)
    (hex : st.dirExists (components s) = true) :
    CreateDirInner_create dirHost st s
      = (Status.OK, { st with lastError := ERROR_ALREADY_EXISTS }) := by
  simp [CreateDirInner_create, dirHost, DirState.CreateDirectory, hex]

/-- The tail of `CreateDirInner` on a missing directory whose parent exists. -/
theorem CreateDirInner_create_fresh (st : DirState) (s : CppString)
    (hex : st.dirExists (components s) = false)
    (hpar : st.dirExists (components s).dropLast = true) :
    CreateDirInner_create dirHost st s
      = (Status.OK, { st with dirs := components s :: st.dirs }) := by
  simp [CreateDirInner_create, dirHost, DirState.CreateDirectory, hex, hpar]

/-- Adding a directory keeps the existing ones. -/
theorem DirState.dirExists_cons (st : DirState) (e : DWORD) (c d : List CppString)
    (hd : st.dirExists d = true) :
    DirState.dirExists { lastError := e, dirs := c :: st.dirs } d = true := by
  simp only [DirState.dirExists, Bool.or_eq_true, List.contains_cons] at hd ⊢
  rcases hd with hd | hd
  · exact Or.inl hd
  · exact Or.inr (Or.inr hd)

/-- The tail of `CreateDirInner` on the directory host succeeds when the parent exists. -/
theorem CreateDirInner_create_ok (st : DirState) (s : CppString) (hcl : st.Closed)
    (hpar : st.dirExists (components s).dropLast = true) :
    CreatedFrom st s (CreateDirInner_create dirHost st s) := by
  unfold CreatedFrom
  cases hex : st.dirExists (components s) with
  | true =>
    rw [CreateDirInner_create_existing st s hex]
    exact ⟨rfl, hex, hcl, fun c hc => hc⟩
  | false =>
    rw [CreateDirInner_create_fresh st s hex hpar]
    refine ⟨rfl, ?_, ?_, ?_⟩
    · simp [DirState.dirExists]
    · intro c hc
      simp only [List.mem_cons] at hc
      rcases hc with hc | hc
      · rw [hc]; exact DirState.dirExists_cons st _ _ _ hpar
      · exact DirState.dirExists_cons st _ _ _ (hcl c hc)
    · intro d hd
      exact DirState.dirExists_cons st _ _ _ hd

/-- A backslash is a separator, and a string free of `/` and `\` has no separator. -/
theorem no_separator_of (t : CppString) (h1 : ∀ x ∈ t, x ≠ '/')
    (h2 : ∀ x ∈ t, (List.contains "\\".toList x) = false) :
    ∀ x ∈ t, isSeparator x = false := by
  intro x hx
  have a := h1 x hx
  have b := h2 x hx
  simp only [String.toList, List.contains_cons, List.contains_nil, Bool.or_false,
    beq_eq_false_iff_ne, ne_eq] at b
  simp [isSeparator, a, b]

/-- A failed `GetFileAttributes` only sets the last error. -/
theorem DirState.GetFileAttributes_missing (st : DirState) (s : CppString)
    (hex : st.dirExists (components s) = false) :
    DirState.GetFileAttributes st s
      = (INVALID_FILE_ATTRIBUTES, { st with lastError := ERROR_PATH_NOT_FOUND }) := by
  simp [DirState.GetFileAttributes, hex]

/-- A successful `GetFileAttributes` leaves the host as it is. -/
theorem DirState.GetFileAttributes_existing (st : DirState) (s : CppString)
    (hex : st.dirExists (components s) = true) :
    DirState.GetFileAttributes st s = (FILE_ATTRIBUTE_DIRECTORY, st) := by
  simp [DirState.GetFileAttributes, hex]

/-- On an existing directory `CreateDirInner` returns OK and changes nothing. -/
theorem CreateDirInner_existing (st : DirState) (s : CppString)
    (hex : st.dirExists (components s) = true) :
    CreateDirInner dirHost st s = (Status.OK, st) := by
  rw [CreateDirInner]
  have hg : dirHost.GetFileAttributes st s = (FILE_ATTRIBUTE_DIRECTORY, st) :=
    DirState.GetFileAttributes_existing st s hex
  simp [hg, FILE_ATTRIBUTE_DIRECTORY, INVALID_FILE_ATTRIBUTES]

/-- On the directory host `CreateDirInner` returns OK on every path free of `/`, and the
directory of the path exists afterwards. -/
theorem CreateDirInner_ok :
    ∀ (n : Nat) (s : CppString) (st : DirState), s.length ≤ n → (∀ x ∈ s, x ≠ '/') →
      st.Closed → CreatedFrom st s (CreateDirInner dirHost st s) := by
  intro n
  induction n with
  | zero =>
    intro s st hn _ hcl
    have hs : s = [] := List.length_eq_zero.mp (Nat.le_zero.mp hn)
    subst hs
    rw [CreateDirInner_existing st [] rfl]
    exact ⟨rfl, rfl, hcl, fun c hc => hc⟩
  | succ n ih =>
    intro s st hn hns hcl
    cases hex : st.dirExists (components s) with
    | true =>
      rw [CreateDirInner_existing st s hex]
      exact ⟨rfl, hex, hcl, fun c hc => hc⟩
    | false =>
      have hg : dirHost.GetFileAttributes st s
          = (INVALID_FILE_ATTRIBUTES, { st with lastError := ERROR_PATH_NOT_FOUND }) :=
        DirState.GetFileAttributes_missing st s hex
      have hcl1 : DirState.Closed { st with lastError := ERROR_PATH_NOT_FOUND } := hcl
      have hm1 : ∀ c, st.dirExists c = true →
          DirState.dirExists { st with lastError := ERROR_PATH_NOT_FOUND } c = true :=
        fun c hc => hc
      rw [CreateDirInner]
      simp only [hg, if_true]
      split
      · rename_i slash hslash
        obtain ⟨c, t, hs, hc, ht⟩ := lastIndexOf_some _ s slash hslash
        have hlt := lastIndexOf_lt _ s slash hslash
        have hcb : c = '\\' := by
          simpa [String.toList] using hc
        have hpre : CreatedFrom { st with lastError := ERROR_PATH_NOT_FOUND }
            (substr0 s slash)
            (CreateDirInner dirHost { st with lastError := ERROR_PATH_NOT_FOUND }
              (substr0 s slash)) := by
          apply ih
          · simp only [substr0, List.length_take]; omega
          · intro x hx
            exact hns x (List.mem_of_mem_take hx)
          · exact hcl1
        obtain ⟨hok, hexp, hclp, hmp⟩ := hpre
        simp only [hok, Status.ok, Bool.not_true, Bool.false_eq_true, if_false]
        have htns : ∀ x ∈ t, isSeparator x = false := by
          apply no_separator_of t
          · intro x hx
            apply hns x
            rw [hs]
            exact List.mem_append_right _ (List.mem_cons_of_mem _ hx)
          · exact ht
        have hcomp : components s = components (substr0 s slash) ++ components t := by
          have hsep : isSeparator c = true := by rw [hcb]; rfl
          have := components_append_sep (s.take slash) c t hsep
          rw [← hs] at this
          exact this
        have hpar : (CreateDirInner dirHost { st with lastError := ERROR_PATH_NOT_FOUND }
            (substr0 s slash)).2.dirExists (components s).dropLast = true := by
          rcases components_no_sep t htns with h0 | h1
          · rw [hcomp, h0, List.append_nil]
            exact DirState.parent_exists _ hclp _ hexp
          · rw [hcomp, h1, List.dropLast_concat]
            exact hexp
        obtain ⟨hok2, hex2, hcl2, hm2⟩ := CreateDirInner_create_ok _ s hclp hpar
        exact ⟨hok2, hex2, hcl2, fun d hd => hm2 d (hmp d (hm1 d hd))⟩
      · rename_i hnone
        have hnosep : ∀ x ∈ s, isSeparator x = false :=
          no_separator_of s hns (lastIndexOf_none _ s hnone)
        have hpar : DirState.dirExists { st with lastError := ERROR_PATH_NOT_FOUND }
            (components s).dropLast = true := by
          rcases components_no_sep s hnosep with h0 | h1
          · rw [h0]; rfl
          · rw [h1]; rfl
        obtain ⟨hok2, hex2, hcl2, hm2⟩ := CreateDirInner_create_ok _ s hcl1 hpar
        exact ⟨hok2, hex2, hcl2, fun d hd => hm2 d (hm1 d hd)⟩

/-- The trailing backslash that `CreateDir` adds does not change the resolved directory. -/
theorem CreateDir_target (CurrentDir dirname : CppString) (hne : dirname ≠ []) :
    components (ModifyPath CurrentDir
        (if dirname.getLast? ≠ some '\\' then dirname ++ ['\\'] else dirname))
      = components (ModifyPath CurrentDir dirname) := by
  by_cases hl : dirname.getLast? ≠ some '\\'
  · rw [if_pos hl]
    cases dirname with
    | nil => exact absurd rfl hne
    | cons c rest =>
      have hm : ModifyPath CurrentDir (c :: rest ++ ['\\'])
          = ModifyPath CurrentDir (c :: rest) ++ ['\\'] := by
        unfold ModifyPath
        have h0 : at0 (c :: rest ++ ['\\']) = at0 (c :: rest) := rfl
        rw [h0]
        split
        · simp [replace]
        · simp [replace]
      rw [hm, components_append_sep _ '\\' [] rfl]
      simp [components, splitPath]
  · rw [if_neg hl]

/-- C9: on the directory host, where creating a directory succeeds whenever its parent
exists, `CreateDir` on a non-empty path returns OK; afterwards the resolved target directory
and every ancestor of it exist and no directory has disappeared; `CreateDir` on the same
path again returns OK and leaves the host unchanged.  Each recursive call of
`CreateDirInner` is on a strictly shorter string. -/
theorem C9_createDir_creates_parents (CurrentDir : CppString) (st : DirState)
    (dirname : CppString) (hne : dirname ≠ []) (hcl : st.Closed) :
    (CreateDir dirHost CurrentDir st dirname).1 = Status.OK ∧
    (CreateDir dirHost CurrentDir st dirname).2.dirExists
        (components (ModifyPath CurrentDir dirname)) = true ∧
    (∀ a, a <+: components (ModifyPath CurrentDir dirname) →
        (CreateDir dirHost CurrentDir st dirname).2.dirExists a = true) ∧
    (∀ c, st.dirExists c = true →
        (CreateDir dirHost CurrentDir st dirname).2.dirExists c = true) ∧
    CreateDir dirHost CurrentDir (CreateDir dirHost CurrentDir st dirname).2 dirname
      = (Status.OK, (CreateDir dirHost CurrentDir st dirname).2) ∧
    (∀ (d : CppString) (slash : Nat), find_last_of d "\\".toList = some slash →
        (substr0 d slash).length < d.length) := by
  have htarget := CreateDir_target CurrentDir dirname hne
  have hns : ∀ x ∈ ModifyPath CurrentDir
      (if dirname.getLast? ≠ some '\\' then dirname ++ ['\\'] else dirname), x ≠ '/' := by
    intro x hx
    unfold ModifyPath at hx
    simp only [replace_eq_normalize] at hx
    exact normalize_no_slash _ x hx
  obtain ⟨hok, hex, hcl2, hmono⟩ := CreateDirInner_ok _ _ st (Nat.le_refl _) hns hcl
  have hrun : CreateDir dirHost CurrentDir st dirname
      = CreateDirInner dirHost st (ModifyPath CurrentDir
          (if dirname.getLast? ≠ some '\\' then dirname ++ ['\\'] else dirname)) := rfl
  rw [hrun]
  rw [htarget] at hex
  refine ⟨hok, hex, ?_, hmono, ?_, ?_⟩
  · intro a ha
    exact DirState.prefix_exists _ hcl2 _ _ rfl hex a ha
  · have hagain : ∀ t, CreateDir dirHost CurrentDir t dirname
        = CreateDirInner dirHost t (ModifyPath CurrentDir
            (if dirname.getLast? ≠ some '\\' then dirname ++ ['\\'] else dirname)) :=
      fun _ => rfl
    rw [hagain]
    apply CreateDirInner_existing
    rw [htarget]
    exact hex
  · intro d slash hd
    have := lastIndexOf_lt _ d slash hd
    simp only [substr0, List.length_take]
    omega

/-- C9 at the path `/a/b/c` with the base directory `C:\db` on a host that has `C:` and
`C:\db`: the directories `C:\db\a`, `C:\db\a\b` and `C:\db\a\b\c` exist afterwards. -/
theorem C9_createDir_creates_parents_witness :
    "/a/b/c".toList ≠ [] ∧
    DirState.Closed { lastError := 0, dirs := [["C:".toList, "db".toList], ["C:".toList]] } ∧
    (CreateDir dirHost "C:\\db".toList
        { lastError := 0, dirs := [["C:".toList, "db".toList], ["C:".toList]] }
        "/a/b/c".toList).1 = Status.OK ∧
    (CreateDir dirHost "C:\\db".toList
        { lastError := 0, dirs := [["C:".toList, "db".toList], ["C:".toList]] }
        "/a/b/c".toList).2.dirExists
      ["C:".toList, "db".toList, "a".toList, "b".toList, "c".toList] = true ∧
    (CreateDir dirHost "C:\\db".toList
        { lastError := 0, dirs := [["C:".toList, "db".toList], ["C:".toList]] }
        "/a/b/c".toList).2.dirExists
      ["C:".toList, "db".toList, "a".toList, "b".toList] = true ∧
    (CreateDir dirHost "C:\\db".toList
        { lastError := 0, dirs := [["C:".toList, "db".toList], ["C:".toList]] }
        "/a/b/c".toList).2.dirExists
      ["C:".toList, "db".toList, "a".toList] = true :=
  have hcl : DirState.Closed
      { lastError := 0, dirs := [["C:".toList, "db".toList], ["C:".toList]] } := by
    intro c hc
    simp only [List.mem_cons, List.mem_singleton, List.not_mem_nil, or_false] at hc
    rcases hc with hc | hc
    · rw [hc]; decide
    · rw [hc]; decide
  have main := C9_createDir_creates_parents "C:\\db".toList
    { lastError := 0, dirs := [["C:".toList, "db".toList], ["C:".toList]] }
    "/a/b/c".toList (by decide) hcl
  ⟨by decide, hcl, main.1, main.2.1,
    main.2.2.1 ["C:".toList, "db".toList, "a".toList, "b".toList]
      ⟨["c".toList], by decide⟩,
    main.2.2.1 ["C:".toList, "db".toList, "a".toList]
      ⟨["b".toList, "c".toList], by decide⟩⟩

/-! ### Logger -/

/-- A text shorter than the buffer is stored whole, and `p` ends right after it. -/
theorem Logv_format_fits (bufsize : Nat) (header message : CppString)
    (h : (header ++ message).length < bufsize) :
    Logv_format bufsize header message = (header ++ message, (header ++ message).length) := by
  rw [List.length_append] at h
  have hh : header.length < bufsize := by omega
  unfold Logv_format snprintf
  simp only [hh, if_true]
  rw [List.take_of_length_le (by omega), List.take_of_length_le (by omega),
    List.length_append]

/-- A text that does not fit leaves `p` at or beyond `limit`, and the buffer holds the first
`bufsize - 1` characters of the text. -/
theorem Logv_format_overflow (bufsize : Nat) (header message : CppString)
    (h : bufsize ≤ (header ++ message).length) :
    bufsize ≤ (Logv_format bufsize header message).2 ∧
    (Logv_format bufsize header message).1 = (header ++ message).take (bufsize - 1) := by
  rw [List.length_append] at h
  unfold Logv_format snprintf
  by_cases hh : header.length < bufsize
  · simp only [hh, if_true]
    refine ⟨h, ?_⟩
    have e1 : bufsize - header.length - 1 = bufsize - 1 - header.length := by omega
    rw [List.take_append_eq_append_take, e1]
  · simp only [hh, if_false]
    refine ⟨by omega, ?_⟩
    rw [List.take_append_eq_append_take]
    have : bufsize - 1 - header.length = 0 := by omega
    rw [this, List.take_zero, List.append_nil]

/-- On a buffer that ends at `p` the newline step yields the record of the specification. -/
theorem Logv_newline_eq (buf : CppString) :
    Logv_newline buf buf.length = (withNewline buf, (withNewline buf).length) := by
  unfold Logv_newline withNewline
  rw [List.getLast?_eq_getElem?]
  by_cases hl : buf[buf.length - 1]? = some '\n'
  · have hne : buf.length ≠ 0 := by
      intro h0
      have hnil : buf = [] := List.length_eq_zero.mp h0
      rw [hnil] at hl
      simp at hl
    simp [hl, hne]
  · simp [hl]

/-- The record of the specification ends in a newline. -/
theorem withNewline_getLast (text : CppString) : (withNewline text).getLast? = some '\n' := by
  unfold withNewline
  by_cases h : text.getLast? = some '\n'
  · simp [h]
  · simp [h]

/-- The record of the specification is at most one character longer than the text. -/
theorem withNewline_length_le (text : CppString) :
    (withNewline text).length ≤ text.length + 1 := by
  unfold withNewline
  by_cases h : text.getLast? = some '\n'
  · simp [h]
  · simp [h]

/-- A pass that ends with the buffer `buf` and `p` right after it, within the limit, appends
the bytes of `buf` once and flushes once. -/
theorem Logv_write_eq {σ : Type} (api : Win32Api σ) (s : σ) (logger : Win32Logger)
    (bufsize : Nat) (buf : CppString) (h : buf.length ≤ bufsize) :
    Logv_write api s logger bufsize buf buf.length
      = some (appendThenFlush api s logger buf) := by
  unfold Logv_write appendThenFlush
  simp [h]

/-- The two passes of `Logv` written out. -/
theorem Logv_passes {σ : Type} (api : Win32Api σ) (s : σ) (logger : Win32Logger)
    (thread_id : Nat) (GetLocalTime : Nat → SYSTEMTIME) (message : CppString) :
    Logv api s logger thread_id GetLocalTime message =
      if 500 ≤ (Logv_format 500 (Logv_header (GetLocalTime 0) thread_id) message).2 then
        if 30000 ≤ (Logv_format 30000 (Logv_header (GetLocalTime 1) thread_id) message).2 then
          Logv_write api s logger 30000
            (Logv_newline
              (Logv_format 30000 (Logv_header (GetLocalTime 1) thread_id) message).1
              (30000 - 1)).1
            (Logv_newline
              (Logv_format 30000 (Logv_header (GetLocalTime 1) thread_id) message).1
              (30000 - 1)).2
        else
          Logv_write api s logger 30000
            (Logv_newline
              (Logv_format 30000 (Logv_header (GetLocalTime 1) thread_id) message).1
              (Logv_format 30000 (Logv_header (GetLocalTime 1) thread_id) message).2).1
            (Logv_newline
              (Logv_format 30000 (Logv_header (GetLocalTime 1) thread_id) message).1
              (Logv_format 30000 (Logv_header (GetLocalTime 1) thread_id) message).2).2
      else
        Logv_write api s logger 500
          (Logv_newline
            (Logv_format 500 (Logv_header (GetLocalTime 0) thread_id) message).1
            (Logv_format 500 (Logv_header (GetLocalTime 0) thread_id) message).2).1
          (Logv_newline
            (Logv_format 500 (Logv_header (GetLocalTime 0) thread_id) message).1
            (Logv_format 500 (Logv_header (GetLocalTime 0) thread_id) message).2).2 := by
  have e0 : (if (0 : Nat) = 0 then 500 else 30000) = 500 := if_pos rfl
  have e1 : (if (0 : Nat) + 1 = 0 then 500 else 30000) = 30000 := if_neg (by omega)
  have e2 : ((0 : Nat) + 1 = 0) = False := eq_false (by omega)
  have e3 : ((0 : Nat) = 0) = True := eq_true rfl
  unfold Logv
  unfold Logv_loop
  dsimp only
  unfold Logv_loop
  dsimp only
  simp only [e0, e1, e2, e3, if_true, if_false, ge_iff_le, Nat.zero_add]

/-- C11: `Logv` leaves the host as one `Append` of one record followed by one `Flush`
leave it, and returns nothing else.  With `s` the header followed by the message: when the
first pass fits 500 characters the record is `s` of that pass with a newline added unless
`s` ends in one; otherwise the second pass writes, and the record is `s` of that pass with a
newline added unless it ends in one when `s` is shorter than 30000, and the first 29999
characters of `s` with a newline added unless they end in one when it is not, which is at
most 30000 characters.  Every record ends in a newline and the assertion never fails. -/
theorem C11_logv_one_record {σ : Type} (api : Win32Api σ) (s : σ) (logger : Win32Logger)
    (thread_id : Nat) (GetLocalTime : Nat → SYSTEMTIME) (message : CppString) :
    ((Logv_header (GetLocalTime 0) thread_id ++ message).length < 500 →
      Logv api s logger thread_id GetLocalTime message
        = some (appendThenFlush api s logger
            (withNewline (Logv_header (GetLocalTime 0) thread_id ++ message)))) ∧
    (500 ≤ (Logv_header (GetLocalTime 0) thread_id ++ message).length →
      (Logv_header (GetLocalTime 1) thread_id ++ message).length < 30000 →
      Logv api s logger thread_id GetLocalTime message
        = some (appendThenFlush api s logger
            (withNewline (Logv_header (GetLocalTime 1) thread_id ++ message)))) ∧
    (500 ≤ (Logv_header (GetLocalTime 0) thread_id ++ message).length →
      30000 ≤ (Logv_header (GetLocalTime 1) thread_id ++ message).length →
      Logv api s logger thread_id GetLocalTime message
        = some (appendThenFlush api s logger
            (withNewline ((Logv_header (GetLocalTime 1) thread_id ++ message).take 29999))) ∧
      (withNewline ((Logv_header (GetLocalTime 1) thread_id ++ message).take 29999)).length
        ≤ 30000) ∧
    (∀ text : CppString,
      (withNewline text).getLast? = some '\n' ∧
      (text.getLast? = some '\n' → withNewline text = text) ∧
      (text.getLast? ≠ some '\n' → withNewline text = text ++ ['\n'])) := by
  refine ⟨?_, ?_, ?_, ?_⟩
  · intro h0
    have hf := Logv_format_fits 500 _ message h0
    have hw := withNewline_length_le (Logv_header (GetLocalTime 0) thread_id ++ message)
    rw [Logv_passes, hf]
    dsimp only
    rw [if_neg (Nat.not_le.mpr h0), Logv_newline_eq]
    dsimp only
    have hle : (withNewline (Logv_header (GetLocalTime 0) thread_id ++ message)).length
        ≤ 500 := by omega
    exact Logv_write_eq api s logger 500 _ hle
  · intro h0 h1
    have hf0 := (Logv_format_overflow 500 _ message h0).1
    have hf := Logv_format_fits 30000 _ message h1
    have hw := withNewline_length_le (Logv_header (GetLocalTime 1) thread_id ++ message)
    rw [Logv_passes, if_pos hf0, hf]
    dsimp only
    rw [if_neg (Nat.not_le.mpr h1), Logv_newline_eq]
    dsimp only
    have hle : (withNewline (Logv_header (GetLocalTime 1) thread_id ++ message)).length
        ≤ 30000 := by omega
    exact Logv_write_eq api s logger 30000 _ hle
  · intro h0 h1
    have hf0 := (Logv_format_overflow 500 _ message h0).1
    have hf := Logv_format_overflow 30000 _ message h1
    have e : (30000 - 1 : Nat) = 29999 := rfl
    rw [e] at hf
    have hlen : ((Logv_header (GetLocalTime 1) thread_id ++ message).take 29999).length
        = 29999 := by
      rw [List.length_take]
      omega
    have hw := withNewline_length_le
      ((Logv_header (GetLocalTime 1) thread_id ++ message).take 29999)
    have hn := Logv_newline_eq
      ((Logv_header (GetLocalTime 1) thread_id ++ message).take 29999)
    rw [hlen] at hn
    have hle : (withNewline
        ((Logv_header (GetLocalTime 1) thread_id ++ message).take 29999)).length
        ≤ 30000 := by omega
    refine ⟨?_, hle⟩
    rw [Logv_passes, if_pos hf0, if_pos hf.1, hf.2, e, hn]
    dsimp only
    exact Logv_write_eq api s logger 30000 _ hle
  · intro text
    refine ⟨withNewline_getLast text, ?_, ?_⟩
    · intro h
      simp [withNewline, h]
    · intro h
      simp [withNewline, h]

/-- C11 on the recording host at the sample time: the message `hello` gives the single
record `2024/03/07-09:05:05.000017 1a2b hello` with its newline; a message of 10000
characters `x` goes through the second pass untruncated; a message of 40000 characters is
cut after the first 29999 characters of header and message. -/
theorem C11_logv_one_record_witness :
    Logv recordingHost [] sampleLogger 0x1a2b (fun _ => sampleTime) "hello".toList
      = some [toBytes "2024/03/07-09:05:05.000017 1a2b hello\n".toList] ∧
    Logv recordingHost [] sampleLogger 0x1a2b (fun _ => sampleTime) (List.replicate 10000 'x')
      = some (appendThenFlush recordingHost [] sampleLogger
          (withNewline (Logv_header sampleTime 0x1a2b ++ List.replicate 10000 'x'))) ∧
    Logv recordingHost [] sampleLogger 0x1a2b (fun _ => sampleTime) (List.replicate 40000 'x')
      = some (appendThenFlush recordingHost [] sampleLogger
          (withNewline
            ((Logv_header sampleTime 0x1a2b ++ List.replicate 40000 'x').take 29999))) :=
  have hh : (Logv_header sampleTime 0x1a2b).length = 32 := by decide
  ⟨(C11_logv_one_record recordingHost [] sampleLogger 0x1a2b (fun _ => sampleTime)
      "hello".toList).1 (by decide),
   (C11_logv_one_record recordingHost [] sampleLogger 0x1a2b (fun _ => sampleTime)
      (List.replicate 10000 'x')).2.1
      (by rw [List.length_append, List.length_replicate, hh]; omega)
      (by rw [List.length_append, List.length_replicate, hh]; omega),
   ((C11_logv_one_record recordingHost [] sampleLogger 0x1a2b (fun _ => sampleTime)
      (List.replicate 40000 'x')).2.2.1
      (by rw [List.length_append, List.length_replicate, hh]; omega)
      (by rw [List.length_append, List.length_replicate, hh]; omega)).1⟩

/-! ### Clock -/

/-- Below 4294968 ticks the default build returns the tick count times 1000, and the build
with `USE_VISTA_API` does so for every counter value whose product fits 64 bits. -/
theorem NowMicros_exact (tick : Nat) :
    (tick < 4294968 → NowMicros false tick = tick * 1000) ∧
    (tick * 1000 < 2 ^ 64 → NowMicros true tick = tick * 1000) := by
  unfold NowMicros
  constructor
  · intro h
    have h1 : tick % 2 ^ 32 = tick := Nat.mod_eq_of_lt (by omega)
    have h2 : tick * 1000 % 2 ^ 32 = tick * 1000 := Nat.mod_eq_of_lt (by omega)
    have h3 : tick * 1000 % 2 ^ 64 = tick * 1000 := Nat.mod_eq_of_lt (by omega)
    simp only [Bool.false_eq_true, if_false, h1, h2, h3]
  · intro h
    have h1 : tick % 2 ^ 64 = tick := Nat.mod_eq_of_lt (by omega)
    have h3 : tick * 1000 % 2 ^ 64 = tick * 1000 := Nat.mod_eq_of_lt h
    simp only [if_true, h1, h3]

/-- C12 (code at the failing input): in the default build the tick counts 4294967 and
4294968 give 4294967000 and 704 microseconds: the second is not the tick count times 1000,
and the later tick count has the smaller timestamp. -/
theorem C12_nowMicros_wraps :
    NowMicros false 4294967 = 4294967000 ∧
    NowMicros false 4294968 = 704 ∧
    NowMicros false 4294968 ≠ 4294968 * 1000 ∧
    (4294967 ≤ 4294968 ∧ ¬ NowMicros false 4294967 ≤ NowMicros false 4294968) ∧
    NowMicros true 4294968 = 4294968 * 1000 := by
  decide

end leveldb
